import Mathlib

/-!
Verification development for the cellSNP pileup/aggregation engine
(`src/cellsnp.c`).  The C data structures and functions are shallowly
embedded as executable Lean definitions; machine counters (`size_t`,
`int`) become `Nat`/`Int`, the `double min_maf` becomes `ℚ`, hash maps
become association lists in roster order, and file contents become lists
of lines, each line a `List Char`.  Helper routines that live in
`cellsnp_util.h` (not part of the sources here) are modelled from the
specification and marked as such in their doc comments.
-/

namespace CellSNP

/-! ## Base-count vectors (the `bc[5]` arrays, fixed order A,C,G,T,N) -/

/-- Sum of the five entries of a base-count array, mirroring the C loops
`for (j = 0; j < 5; j++) ... += bc[j]`. -/
def sum5 (bc : List Nat) : Nat :=
  bc.getD 0 0 + bc.getD 1 0 + bc.getD 2 0 + bc.getD 3 0 + bc.getD 4 0

/-- `bc[i]++` on a base-count array. -/
def incAt (bc : List Nat) (i : Nat) : List Nat :=
  bc.set i (bc.getD i 0 + 1)

/-- Pointwise sum of two 5-entry count arrays, mirroring
`for (j = 0; j < 5; j++) mplp->bc[j] += plp->bc[j]`. -/
def vadd5 (a b : List Nat) : List Nat :=
  [a.getD 0 0 + b.getD 0 0, a.getD 1 0 + b.getD 1 0, a.getD 2 0 + b.getD 2 0,
   a.getD 3 0 + b.getD 3 0, a.getD 4 0 + b.getD 4 0]

/-- Modelled from the spec: `seq_nt16_idx2int` lives in `cellsnp_util.h`,
which is not among the sources; the spec fixes the base order A,C,G,T,N,
with any other observed code counted as N.  Bases are represented as
characters here. -/
def seq_nt16_idx2int (c : Char) : Nat :=
  if c = 'A' then 0 else if c = 'C' then 1 else if c = 'G' then 2
  else if c = 'T' then 3 else 4

/-- Modelled from the spec: `seq_nt16_char2int` lives in `cellsnp_util.h`,
which is not among the sources.  It maps a supplied ref/alt base to its
index in the fixed order A,C,G,T,N; anything else is not a valid base and
yields a negative index (`csp_mplp_t` uses negative for "not valid"). -/
def seq_nt16_char2int (c : Char) : Int :=
  if c = 'A' then 0 else if c = 'C' then 1 else if c = 'G' then 2
  else if c = 'T' then 3 else if c = 'N' then 4 else -1

/-- Modelled from the spec: `seq_nt16_int2char` lives in `cellsnp_util.h`,
which is not among the sources; inverse direction of the fixed base order
A,C,G,T,N. -/
def seq_nt16_int2char (i : Int) : Char :=
  if i = 0 then 'A' else if i = 1 then 'C' else if i = 2 then 'G'
  else if i = 3 then 'T' else 'N'

/-! ## Global settings (`struct _gll_settings`), restricted to the fields
the pileup core reads.  `cell_tag`, `umi_tag` are `Option` (NULL = `none`);
`sample_ids` records whether the sample-ID array is non-NULL. -/

structure global_settings where
  cell_tag : Option String
  umi_tag : Option String
  sample_ids : Bool
  min_count : Nat
  min_maf : ℚ
  min_len : Nat
  min_mapq : Nat
  max_flag : Nat
  is_genotype : Bool
  double_gl : Bool
  deriving Repr

/-- `#define use_barcodes(gs) ((gs)->cell_tag)`. -/
def use_barcodes (gs : global_settings) : Bool := gs.cell_tag.isSome

/-- `#define use_sid(gs) ((gs)->sample_ids)`. -/
def use_sid (gs : global_settings) : Bool := gs.sample_ids

/-- `#define use_umi(gs) ((gs)->umi_tag)`. -/
def use_umi (gs : global_settings) : Bool := gs.umi_tag.isSome

/-! ## Per-sample-group pileup state (`csp_plp_t`) and the site-wide
state (`csp_mplp_t`). -/

structure csp_plp_t where
  bc : List Nat
  qu : List (List Nat)
  hug : List String
  tc : Nat
  ad : Nat
  dp : Nat
  oth : Nat
  qmat : List (List ℚ)
  gl : List ℚ
  ngl : Nat
  deriving Repr, DecidableEq

/-- A freshly prepared sample group: all counters zero, empty quality
lists and UMI set (`csp_plp_init` / state after `csp_mplp_reset`). -/
def csp_plp_fresh : csp_plp_t :=
  { bc := [0, 0, 0, 0, 0], qu := [[], [], [], [], []], hug := [],
    tc := 0, ad := 0, dp := 0, oth := 0,
    qmat := [[0,0,0,0],[0,0,0,0],[0,0,0,0],[0,0,0,0],[0,0,0,0]],
    gl := [], ngl := 0 }

structure csp_mplp_t where
  groups : List (String × csp_plp_t)
  bc : List Nat
  tc : Nat
  ref_idx : Int
  alt_idx : Int
  inf_rid : Int
  inf_aid : Int
  ad : Nat
  dp : Nat
  oth : Nat
  nr_ad : Nat
  nr_dp : Nat
  nr_oth : Nat
  deriving Repr, DecidableEq

/-- The prepared site-wide state for a roster of sample-group names
(`csp_mplp_prepare` / state after `csp_mplp_reset`): one fresh group per
roster entry, all site-wide counters zero. -/
def csp_mplp_prepare (roster : List String) : csp_mplp_t :=
  { groups := roster.map (fun s => (s, csp_plp_fresh)),
    bc := [0, 0, 0, 0, 0], tc := 0,
    ref_idx := -1, alt_idx := -1, inf_rid := -1, inf_aid := -1,
    ad := 0, dp := 0, oth := 0, nr_ad := 0, nr_dp := 0, nr_oth := 0 }

/-! ## The record pushed per accepted read (`csp_pileup_t`, only the
fields read by `csp_mplp_push`). -/

structure csp_pileup_t where
  cb : String
  umi : String
  base : Char
  qual : Nat
  deriving Repr, DecidableEq

/-- First-match lookup in the sample-group table (`csp_map_sg_get` on the
hash map whose keys are the roster names). -/
def lookupGroup : List (String × csp_plp_t) → String → Option csp_plp_t
  | [], _ => none
  | (k, v) :: rest, key => if k = key then some v else lookupGroup rest key

/-- First-match update in the sample-group table (writing through the
hash-map value pointer). -/
def updateGroup : List (String × csp_plp_t) → String → csp_plp_t → List (String × csp_plp_t)
  | [], _, _ => []
  | (k, v) :: rest, key, nv =>
      if k = key then (k, nv) :: rest else (k, v) :: updateGroup rest key nv

/-- `csp_list_qu_push(plp->qu[idx], qual)`: append one quality value to the
per-base growable list. -/
def pushQual (qu : List (List Nat)) (idx : Nat) (q : Nat) : List (List Nat) :=
  qu.set idx (qu.getD idx [] ++ [q])

/-- The counting step common to both branches of `csp_mplp_push`:
`idx = seq_nt16_idx2int(pileup->base); plp->bc[idx]++;`
`csp_list_qu_push(plp->qu[idx], pileup->qual);`. -/
def plp_count (pileup : csp_pileup_t) (plp : csp_plp_t) : csp_plp_t :=
  let idx := seq_nt16_idx2int pileup.base
  { plp with bc := incAt plp.bc idx, qu := pushQual plp.qu idx pileup.qual }

/-- The UMI branch of `csp_mplp_push`: if the UMI is already a key of the
group's UMI hash set `plp->hug`, do nothing; otherwise record the UMI and
count the first read's base and quality. -/
def plp_push_umi (pileup : csp_pileup_t) (plp : csp_plp_t) : csp_plp_t :=
  if plp.hug.contains pileup.umi then plp
  else plp_count pileup { plp with hug := pileup.umi :: plp.hug }

/-- `csp_mplp_push(pileup, mplp, sid, gs)`.  Return codes follow the C:
`0` success (the duplicate-UMI case also falls through to `return 0`),
`1` cell barcode not in the roster, negative for internal error (the
"neither barcodes nor sample IDs" branch; the C's `-2` khash failure and
an out-of-range `sid`, impossible under the checked invariant
`nsid == nin`, are collapsed into `-1` here). -/
def csp_mplp_push (pileup : csp_pileup_t) (mplp : csp_mplp_t) (sid : Int)
    (gs : global_settings) : Int × csp_mplp_t :=
  if use_barcodes gs then
    match lookupGroup mplp.groups pileup.cb with
    | none => (1, mplp)
    | some plp =>
        let plp' := if use_umi gs then plp_push_umi pileup plp else plp_count pileup plp
        (0, { mplp with groups := updateGroup mplp.groups pileup.cb plp' })
  else if use_sid gs then
    match mplp.groups.get? sid.toNat with
    | none => (-1, mplp)
    | some (k, plp) =>
        let plp' := if use_umi gs then plp_push_umi pileup plp else plp_count pileup plp
        (0, { mplp with groups := mplp.groups.set sid.toNat (k, plp') })
  else (-1, mplp)

/-- Folding a sequence of reads into the site state, as the read loop of
`pileup_snp_with_fetch` does (later return codes do not stop the loop). -/
def pushAll (ps : List csp_pileup_t) (mplp : csp_mplp_t) (sid : Int)
    (gs : global_settings) : csp_mplp_t :=
  ps.foldl (fun m p => (csp_mplp_push p m sid gs).2) mplp

/-! ## Aggregation (`csp_mplp_stat`) -/

/-- Per-group part of the first summing loop of `csp_mplp_stat`:
`for (j = 0; j < 5; j++) plp->tc += plp->bc[j];`. -/
def plp_sum (plp : csp_plp_t) : csp_plp_t :=
  { plp with tc := plp.tc + sum5 plp.bc }

/-- The summing step of `csp_mplp_stat` (lines 320-327): every group's
`tc` accumulates its own five base counts, the site-wide `bc` accumulates
every group's base counts, and then the site-wide `tc` accumulates the
site-wide `bc`. -/
def csp_mplp_sum (mplp : csp_mplp_t) : csp_mplp_t :=
  let bc' := mplp.groups.foldl (fun acc p => vadd5 acc p.2.bc) mplp.bc
  { mplp with
      groups := mplp.groups.map (fun p => (p.1, plp_sum p.2)),
      bc := bc',
      tc := mplp.tc + sum5 bc' }

/-- Index of the largest entry of a 5-entry count array, skipping index
`excl` (pass `5` to skip nothing); ties go to the smaller index. -/
def argmax5 (bc : List Nat) (excl : Nat) : Nat :=
  ((List.range 5).filter (fun i => i ≠ excl)).foldl
    (fun best i => if bc.getD i 0 > bc.getD best 0 then i else best)
    (if excl = 0 then 1 else 0)

/-- Modelled from the spec: `csp_infer_allele` lives in `cellsnp_util.h`,
which is not among the sources.  It picks the bases with the highest and
second-highest total counts, ties broken by the fixed base-priority order
(the smaller index in the fixed order A,C,G,T,N wins). -/
def csp_infer_allele (bc : List Nat) : Int × Int :=
  let rid := argmax5 bc 5
  ((rid : Int), (argmax5 bc rid : Int))

/-- Modelled from the spec: `get_qual_vector(qual, 45, 0.25, qvec)` lives
in `cellsnp_util.h`, which is not among the sources.  It converts one
retained quality value into a 4-state error-probability contribution by a
fixed conversion with a maximum-quality clamp (45) and a baseline error
floor (0.25); the exact constants are an external numeric contract, so a
fixed total function of the clamped quality stands in for them.  Modelled
qualities are well-formed, hence the C's malformed-quality error path does
not arise. -/
def get_qual_vector (q cap : Nat) (flr : ℚ) : List ℚ :=
  let qc : Nat := min q cap
  [(qc : ℚ) / (cap : ℚ), 1 - (qc : ℚ) / (cap : ℚ), flr, 1 - flr]

/-- Pointwise sum of two 4-entry rational vectors
(`for (k = 0; k < 4; k++) plp->qmat[j][k] += mplp->qvec[k];`). -/
def vaddQ4 (a b : List ℚ) : List ℚ :=
  [a.getD 0 0 + b.getD 0 0, a.getD 1 0 + b.getD 1 0,
   a.getD 2 0 + b.getD 2 0, a.getD 3 0 + b.getD 3 0]

/-- Modelled from the spec: `qual_matrix_to_geno` lives in
`cellsnp_util.h`, which is not among the sources.  From the accumulated
[5 base]×[4 state] quality matrix plus the site refIndex/altIndex it
derives Phred-scaled genotype likelihoods for homozygous-ref,
heterozygous and homozygous-alt, plus the two fractional doublet states
when doublet-likelihood retention is on; the exact numerics are an
external contract, so a fixed total function stands in for them. -/
def qual_matrix_to_geno (qmat : List (List ℚ)) (ref alt : Nat)
    (dbl : Bool) : List ℚ × Nat :=
  let r := (qmat.getD ref []).foldl (· + ·) 0
  let a := (qmat.getD alt []).foldl (· + ·) 0
  if dbl then ([r, (r + a) / 2, a, (3 * r + a) / 4, (r + 3 * a) / 4], 5)
  else ([r, (r + a) / 2, a], 3)

/-- The genotype part of the per-group loop of `csp_mplp_stat`:
accumulate every retained quality value of every base category into the
group's quality matrix, then derive genotype likelihoods. -/
def plp_genotype (gs : global_settings) (ref alt : Nat) (plp : csp_plp_t) : csp_plp_t :=
  let qmat := (List.range 5).map (fun j =>
    (plp.qu.getD j []).foldl (fun acc q => vaddQ4 acc (get_qual_vector q 45 (1/4)))
      (plp.qmat.getD j []))
  let g := qual_matrix_to_geno qmat ref alt gs.double_gl
  { plp with qmat := qmat, gl := g.1, ngl := g.2 }

/-- Per-group part of the second loop of `csp_mplp_stat`: AD/DP/OTH from
the site-wide ref/alt indices, then the optional genotype step. -/
def plp_finalize (gs : global_settings) (ref alt : Nat) (plp : csp_plp_t) : csp_plp_t :=
  let ad := plp.bc.getD alt 0
  let dp := plp.bc.getD ref 0 + ad
  let p' := { plp with ad := ad, dp := dp, oth := plp.tc - dp }
  if gs.is_genotype then plp_genotype gs ref alt p' else p'

/-- The minor-allele-frequency test `mplp->bc[mplp->inf_aid] < mplp->tc *
gs->min_maf` (line 330), computed as the exact rational comparison via
cross-multiplication with the threshold's numerator and denominator
(`mafLt_iff` proves it equal to the inequality over ℚ); this keeps the
comparison kernel-computable. -/
def mafLt (bc tc : Nat) (maf : ℚ) : Prop :=
  (bc : Int) * (maf.den : Int) < (tc : Int) * maf.num

instance (bc tc : Nat) (maf : ℚ) : Decidable (mafLt bc tc maf) :=
  inferInstanceAs (Decidable (_ < _))

/-- The inference step of `csp_mplp_stat` (line 329): store the inferred
(ref, alt) pair into `mplp->inf_rid` / `mplp->inf_aid`. -/
def csp_mplp_infer (m1 : csp_mplp_t) : csp_mplp_t :=
  { m1 with inf_rid := (csp_infer_allele m1.bc).1,
            inf_aid := (csp_infer_allele m1.bc).2 }

/-- The install step of `csp_mplp_stat` (lines 331-334): when the
supplied ref or alt index is not valid, the inferred pair becomes the
SNP's ref/alt. -/
def csp_mplp_install (m2 : csp_mplp_t) : csp_mplp_t :=
  if m2.ref_idx < 0 ∨ m2.alt_idx < 0
  then { m2 with ref_idx := m2.inf_rid, alt_idx := m2.inf_aid } else m2

/-- The output part of `csp_mplp_stat` (lines 335-350): site-wide
AD/DP/OTH from the (now fixed) ref/alt indices, then the per-group loop
deriving each group's AD/DP/OTH (counting the groups with nonzero values
into `nr_ad`/`nr_dp`/`nr_oth`) and the optional genotype step. -/
def csp_mplp_outputs (gs : global_settings) (m3 : csp_mplp_t) : csp_mplp_t :=
  let ad := m3.bc.getD m3.alt_idx.toNat 0
  let dp := m3.bc.getD m3.ref_idx.toNat 0 + ad
  let groups' := m3.groups.map (fun p =>
    (p.1, plp_finalize gs m3.ref_idx.toNat m3.alt_idx.toNat p.2))
  { m3 with
      groups := groups',
      ad := ad, dp := dp, oth := m3.tc - dp,
      nr_ad := m3.nr_ad + (groups'.filter (fun p => p.2.ad ≠ 0)).length,
      nr_dp := m3.nr_dp + (groups'.filter (fun p => p.2.dp ≠ 0)).length,
      nr_oth := m3.nr_oth + (groups'.filter (fun p => p.2.oth ≠ 0)).length }

/-- `csp_mplp_stat(mplp, gs)` (lines 316-352): returns the C code
(`0` success, `1` filtered) with the updated state.  The `-1` error code
arises in the C only from malformed quality values inside the modelled
genotype helpers, which the model makes total. -/
def csp_mplp_stat (mplp : csp_mplp_t) (gs : global_settings) : Int × csp_mplp_t :=
  let m1 := csp_mplp_sum mplp
  if m1.tc < gs.min_count then (1, m1)
  else
    let m2 := csp_mplp_infer m1
    if mafLt (m2.bc.getD m2.inf_aid.toNat 0) m2.tc gs.min_maf then (1, m2)
    else (0, csp_mplp_outputs gs (csp_mplp_install m2))

/-! ## The read resolver (`pileup_read_with_fetch`) -/

/-- htslib CIGAR operation codes (external interface constants). -/
def BAM_CMATCH : Nat := 0
def BAM_CINS : Nat := 1
def BAM_CDEL : Nat := 2
def BAM_CREF_SKIP : Nat := 3
def BAM_CSOFT_CLIP : Nat := 4
def BAM_CHARD_CLIP : Nat := 5
def BAM_CPAD : Nat := 6
def BAM_CEQUAL : Nat := 7
def BAM_CDIFF : Nat := 8

/-- `op == BAM_CMATCH || op == BAM_CEQUAL || op == BAM_CDIFF`. -/
def isMatchOp (op : Nat) : Bool :=
  op == BAM_CMATCH || op == BAM_CEQUAL || op == BAM_CDIFF

/-- `op == BAM_CDEL || op == BAM_CREF_SKIP`. -/
def isDelSkipOp (op : Nat) : Bool :=
  op == BAM_CDEL || op == BAM_CREF_SKIP

/-- `op == BAM_CINS || op == BAM_CSOFT_CLIP`. -/
def isInsClipOp (op : Nat) : Bool :=
  op == BAM_CINS || op == BAM_CSOFT_CLIP

/-- One read alignment record, as provided by the external read source:
decoded CIGAR (operation, length) pairs, query base/quality arrays, the
core mapping quality and flag, and the already-resolved tag lookups for
the configured UMI and cell-barcode tag names (`none` = tag absent). -/
structure bam1_t where
  pos : Nat
  cigar : List (Nat × Nat)
  seq : List Char
  qual : List Nat
  mapq : Nat
  flag : Nat
  umi : Option String
  cb : Option String

/-- The first CIGAR loop of `pileup_read_with_fetch`: walk operations
accumulating the reference coordinate `x`, the query coordinate `y` and
the aligned length `laln`, stopping at the first operation after which
`x > pos`.  Returns that operation together with `px`, `py` (the
coordinates before it), the aligned length accumulated through it, and
the remaining operations; `none` when the walk exhausts the list
(the C's `assert(k < c->n_cigar)` would fire). -/
def cigarFind (pos : Nat) : List (Nat × Nat) → Nat → Nat → Nat →
    Option ((Nat × Nat) × Nat × Nat × Nat × List (Nat × Nat))
  | [], _, _, _ => none
  | (op, l) :: rest, x, y, laln =>
      let x' := if isMatchOp op || isDelSkipOp op then x + l else x
      let y' := if isMatchOp op || isInsClipOp op then y + l else y
      let laln' := if isMatchOp op then laln + l else laln
      if x' > pos then some ((op, l), x, y, laln', rest)
      else cigarFind pos rest x' y' laln'

/-- The second CIGAR loop of `pileup_read_with_fetch`
(`for (k++; ...) if match-class: laln += l`), and also the total
match-class length of a whole operation list. -/
def totalAlnLen : List (Nat × Nat) → Nat
  | [] => 0
  | (op, l) :: rest => (if isMatchOp op then l else 0) + totalAlnLen rest

/-- Result of resolving one read at the target position.  `badFormat` is
the C's return 1 (required tag missing), `filtered` its return 2, `ok`
its return 0 carrying the filled `csp_pileup_t` and the query position
and aligned length. -/
inductive ReadRes where
  | badFormat : ReadRes
  | filtered : ReadRes
  | ok : csp_pileup_t → Nat → Nat → ReadRes
  deriving Repr, DecidableEq

/-- `pileup_read_with_fetch(pos, p, gs)` (lines 368-413).  `none` models
a failed `assert` (read starting after the target, or CIGAR not covering
the target, or a covering operation that is neither match-class nor
deletion/reference-skip — the C comments call the latter a bug and it is
in fact unreachable, see `cigarFind_covering_class`). -/
def pileup_read_with_fetch (pos : Nat) (b : bam1_t) (gs : global_settings) :
    Option ReadRes :=
  if use_umi gs && b.umi.isNone then some .badFormat
  else if use_barcodes gs && b.cb.isNone then some .badFormat
  else if b.mapq < gs.min_mapq then some .filtered
  else if gs.max_flag < b.flag then some .filtered
  else if pos < b.pos then none
  else
    match cigarFind pos b.cigar b.pos 0 0 with
    | none => none
    | some ((op, _), px, py, laln, rest) =>
        if isMatchOp op then
          let qpos := py + (pos - px)
          let laln2 := laln + totalAlnLen rest
          if laln2 < gs.min_len then some .filtered
          else some (.ok { cb := b.cb.getD "", umi := b.umi.getD "",
                           base := b.seq.getD qpos 'N',
                           qual := b.qual.getD qpos 0 } qpos laln2)
        else if isDelSkipOp op then some .filtered
        else none

/-! ## Per-SNP pileup (`pileup_snp_with_fetch`) -/

/-- One SNP from the input list (`csp_snp_t`); `none` ref/alt models the
C's `'\0'` "not supplied". -/
structure csp_snp_t where
  chr : String
  pos : Nat
  ref : Option Char
  alt : Option Char
  deriving Repr, DecidableEq

/-- One configured input file (`csp_bam_fs`), abstracted to what the SNP
loop uses: the header's sequence-name lookup (`csp_sam_hdr_name2id`,
negative = chromosome absent from this source) and region-bounded read
fetch for `[pos, pos+1)` at a resolved sequence id. -/
structure csp_bam_fs where
  name2id : String → Int
  fetch : Int → Nat → List bam1_t

/-- Outcome of the read/source loops of `pileup_snp_with_fetch`: `abort`
models a failed `assert` inside the read resolver, `err` the
`state = -1` hard-error exit, `filtered` the `state = 1` exit taken when
a source's chromosome lookup fails, `done` the fall-through with the
final state and the number of successfully pushed reads. -/
inductive SnpLoopRes where
  | abort : SnpLoopRes
  | err : csp_mplp_t → SnpLoopRes
  | filtered : csp_mplp_t → SnpLoopRes
  | done : csp_mplp_t → Nat → SnpLoopRes

/-- The inner read loop of `pileup_snp_with_fetch` for one source
(lines 445-456): resolve each fetched read, push successes, count pushes
with return code 0, treat resolver rejects as skips. -/
def snpReadLoop (pos : Nat) (gs : global_settings) (i : Nat) :
    List bam1_t → csp_mplp_t → Nat → SnpLoopRes
  | [], mplp, npushed => .done mplp npushed
  | b :: bs, mplp, npushed =>
      match pileup_read_with_fetch pos b gs with
      | none => .abort
      | some .badFormat => snpReadLoop pos gs i bs mplp npushed
      | some .filtered => snpReadLoop pos gs i bs mplp npushed
      | some (.ok pu _ _) =>
          if use_barcodes gs then
            let r := csp_mplp_push pu mplp (-1) gs
            if r.1 < 0 then .err r.2
            else snpReadLoop pos gs i bs r.2 (if r.1 = 0 then npushed + 1 else npushed)
          else if use_sid gs then
            let r := csp_mplp_push pu mplp (i : Int) gs
            if r.1 < 0 then .err r.2
            else snpReadLoop pos gs i bs r.2 (if r.1 = 0 then npushed + 1 else npushed)
          else .err mplp

/-- The source loop of `pileup_snp_with_fetch` (lines 439-459): for each
input file resolve the SNP's chromosome; a failed lookup takes the
`state = 1; goto fail` exit for the whole SNP. -/
def snpSourceLoop (snp : csp_snp_t) (gs : global_settings) :
    Nat → List csp_bam_fs → csp_mplp_t → Nat → SnpLoopRes
  | _, [], mplp, npushed => .done mplp npushed
  | i, bs :: rest, mplp, npushed =>
      let tid := bs.name2id snp.chr
      if tid < 0 then .filtered mplp
      else
        match snpReadLoop snp.pos gs i (bs.fetch tid snp.pos) mplp npushed with
        | .abort => .abort
        | .err m => .err m
        | .filtered m => .filtered m
        | .done m np => snpSourceLoop snp gs (i + 1) rest m np

/-- `pileup_snp_with_fetch(snp, fs, nfs, pileup, mplp, gs)`
(lines 427-476): seed the supplied ref/alt indices, run the source loop,
apply the `npushed < min_count` pre-filter, then aggregate with
`csp_mplp_stat`.  Returns the C code (`0` success, `1` non-fatal pileup
failure, `-1` error) with the final state; `none` models a failed
`assert`. -/
def pileup_snp_with_fetch (snp : csp_snp_t) (fs : List csp_bam_fs)
    (mplp : csp_mplp_t) (gs : global_settings) : Option (Int × csp_mplp_t) :=
  let m0 := { mplp with
                ref_idx := match snp.ref with
                           | some c => seq_nt16_char2int c
                           | none => -1,
                alt_idx := match snp.alt with
                           | some c => seq_nt16_char2int c
                           | none => -1 }
  match snpSourceLoop snp gs 0 fs m0 0 with
  | .abort => none
  | .err m => some (-1, m)
  | .filtered m => some (1, m)
  | .done m np =>
      if np < gs.min_count then some (1, m)
      else
        let r := csp_mplp_stat m gs
        if r.1 = 0 then some (0, r.2)
        else some ((if r.1 > 0 then 1 else -1), r.2)

/-- Whether one SNP passes all statistical filters for the given fixed
input: `pileup_snp_with_fetch` returns code 0, i.e. the SNP is written to
the outputs (`d->ns++` branch of the driver, line 576). -/
def sitePasses (fs : List csp_bam_fs) (mplp : csp_mplp_t) (gs : global_settings)
    (snp : csp_snp_t) : Bool :=
  match pileup_snp_with_fetch snp fs mplp gs with
  | some r => r.1 == 0
  | none => false

/-! ## Output rendering.  File contents are modelled as lists of lines,
each line a `List Char` (the trailing newline of every printed line is
implicit).  Decimal rendering of counters mirrors `printf`-style `%ld`. -/

/-- Decimal rendering of a natural number (most significant digit
first), as `fprintf`/`ksprintf` format it. -/
def natChars (n : Nat) : List Char :=
  if _h : n < 10 then [Nat.digitChar n]
  else natChars (n / 10) ++ [Nat.digitChar (n % 10)]
decreasing_by exact Nat.div_lt_self (by omega) (by omega)

/-- The `ks_len(s) && ks_str(s)[0] == '%'` test of `rewrite_mtx`. -/
def lineIsComment : List Char → Bool
  | [] => false
  | c :: _ => c == '%'

/-- The matrix stat line `"%ld\t%d\t%ld"` of total sites, total samples,
total records. -/
def statLine (ns nsmp nr : Nat) : List Char :=
  natChars ns ++ '\t' :: natChars nsmp ++ '\t' :: natChars nr

/-- The `CSP_MTX_HEADER` comment block `main` writes to each matrix file
before any body is appended. -/
def mtxHeaderChars : List (List Char) :=
  ["%%MatrixMarket matrix coordinate integer general".data, "%".data]

/-- The nonzero records of one matrix field for one passing SNP:
1-based sample ordinals in roster order, as the per-group output loop
enumerates `mplp->hsg_iter[i]` for `i = 0..nsg-1`. -/
def mtxRecords (f : csp_plp_t → Nat) (m : csp_mplp_t) : List (Nat × Nat) :=
  m.groups.enum.filterMap
    (fun p => if f p.2.2 = 0 then none else some (p.1 + 1, f p.2.2))

/-- A per-shard temporary-file record line: `sampleOrdinal TAB count`. -/
def tmpMtxLine (r : Nat × Nat) : List Char :=
  natChars r.1 ++ '\t' :: natChars r.2

/-- A final matrix record line: `siteOrdinal TAB sampleOrdinal TAB count`. -/
def mtxLine (idx : Nat) (r : Nat × Nat) : List Char :=
  natChars idx ++ '\t' :: tmpMtxLine r

/-- Modelled from the spec: `csp_mplp_to_mtx` lives in `cellsnp_util.h`,
which is not among the sources.  Per §6 a final matrix record line is
`siteOrdinal TAB sampleOrdinal TAB count` with the caller-supplied 1-based
site ordinal; per §4.5 a per-shard temporary fragment instead separates
sites by blank-line boundaries and carries no global ordinal, exactly the
shape `merge_mtx` in `src/cellsnp.c` consumes (it counts blank lines and
prefixes its own running site ordinal to every non-blank line).  The
output file's `is_tmp` flag selects the shape. -/
def csp_mplp_to_mtx_lines (isTmp : Bool) (idx : Nat) (recs : List (Nat × Nat)) :
    List (List Char) :=
  if isTmp then recs.map tmpMtxLine ++ [[]] else recs.map (mtxLine idx)

/-- The base-VCF record `ksprintf` builds per passing SNP (line 580):
`"%s\t%ld\t.\t%c\t%c\t.\tPASS\tAD=%ld;DP=%ld;OTH=%ld"` with 1-based
position and the site ref/alt characters. -/
def vcf_base_line (snp : csp_snp_t) (m : csp_mplp_t) : List Char :=
  snp.chr.data ++ '\t' :: natChars (snp.pos + 1) ++ "\t.\t".data ++
  seq_nt16_int2char m.ref_idx :: '\t' :: seq_nt16_int2char m.alt_idx ::
  "\t.\tPASS\tAD=".data ++ natChars m.ad ++ ";DP=".data ++ natChars m.dp ++
  ";OTH=".data ++ natChars m.oth

/-- Fixed deterministic rendering of a rational genotype-likelihood value
(the exact numeric formatting is part of the external genotype
contract). -/
def ratChars (q : ℚ) : List Char := natChars q.floor.toNat

/-- Comma-join, for the `PL` and `ALL` FORMAT fields. -/
def joinComma : List (List Char) → List Char
  | [] => []
  | [x] => x
  | x :: y :: xs => x ++ ',' :: joinComma (y :: xs)

/-- Modelled from the spec: the called-genotype string derived from the
genotype likelihoods (part of the `csp_mplp_to_vcf` external rendering
contract); a fixed deterministic choice. -/
def render_gt (gl : List ℚ) : List Char :=
  if gl.getD 0 0 ≤ gl.getD 1 0 ∧ gl.getD 0 0 ≤ gl.getD 2 0 then "0/0".data
  else if gl.getD 2 0 ≤ gl.getD 1 0 then "1/1".data else "0/1".data

/-- Modelled from the spec: one sample's colon-joined
`GT:AD:DP:OTH:PL:ALL` value in the per-cell VCF (`ALL` is the five raw
per-base counts in fixed base order). -/
def csp_plp_to_vcf (plp : csp_plp_t) : List Char :=
  render_gt plp.gl ++ ':' :: natChars plp.ad ++ ':' :: natChars plp.dp ++
  ':' :: natChars plp.oth ++ ':' :: joinComma (plp.gl.map ratChars) ++
  ':' :: joinComma ((List.range 5).map (fun j => natChars (plp.bc.getD j 0)))

/-- Modelled from the spec: `csp_mplp_to_vcf` lives in `cellsnp_util.h`,
which is not among the sources; it appends one tab-prefixed per-sample
column per roster entry, in roster order. -/
def csp_mplp_to_vcf (m : csp_mplp_t) : List Char :=
  m.groups.foldl (fun acc p => acc ++ '\t' :: csp_plp_to_vcf p.2) []

/-- The per-cell VCF record: base columns, the FORMAT name column, then
the per-sample columns (lines 583-588). -/
def vcf_cells_line (snp : csp_snp_t) (m : csp_mplp_t) : List Char :=
  vcf_base_line snp m ++ "\tGT:AD:DP:OTH:PL:ALL".data ++ csp_mplp_to_vcf m

/-! ## The per-shard driver (`pileup_positions_with_fetch`) -/

/-- The per-worker accumulators of `thread_data`: processed passing-site
count, per-matrix record counts, and the lines appended to the worker's
five output files. -/
structure thread_data where
  ns : Nat
  nr_ad : Nat
  nr_dp : Nat
  nr_oth : Nat
  mtx_ad : List (List Char)
  mtx_dp : List (List Char)
  mtx_oth : List (List Char)
  vcf_base : List (List Char)
  vcf_cells : List (List Char)
  deriving Repr, DecidableEq

/-- `thdata_init()`: all counters zero, nothing written yet. -/
def thdata_init : thread_data :=
  { ns := 0, nr_ad := 0, nr_dp := 0, nr_oth := 0,
    mtx_ad := [], mtx_dp := [], mtx_oth := [], vcf_base := [], vcf_cells := [] }

/-- The SNP loop of `pileup_positions_with_fetch` (lines 554-590): per
SNP run `pileup_snp_with_fetch` against the prepared (reset) site state
`mplpP`; a negative code aborts the worker, a positive code skips the
SNP, code 0 bumps `ns`, adds the per-site record counts, and appends the
site's matrix records (with the worker-local 1-based ordinal `d->ns` in
direct mode, `is_tmp` fragment shape otherwise) and VCF line(s). -/
def pileup_positions_loop (fs : List csp_bam_fs) (gs : global_settings)
    (mplpP : csp_mplp_t) (isTmp : Bool) :
    List csp_snp_t → thread_data → Option thread_data
  | [], d => some d
  | snp :: rest, d =>
      match pileup_snp_with_fetch snp fs mplpP gs with
      | none => none
      | some (code, m) =>
          if code < 0 then none
          else if code = 0 then
            pileup_positions_loop fs gs mplpP isTmp rest
              { ns := d.ns + 1,
                nr_ad := d.nr_ad + m.nr_ad,
                nr_dp := d.nr_dp + m.nr_dp,
                nr_oth := d.nr_oth + m.nr_oth,
                mtx_ad := d.mtx_ad ++
                  csp_mplp_to_mtx_lines isTmp (d.ns + 1) (mtxRecords (fun p => p.ad) m),
                mtx_dp := d.mtx_dp ++
                  csp_mplp_to_mtx_lines isTmp (d.ns + 1) (mtxRecords (fun p => p.dp) m),
                mtx_oth := d.mtx_oth ++
                  csp_mplp_to_mtx_lines isTmp (d.ns + 1) (mtxRecords (fun p => p.oth) m),
                vcf_base := d.vcf_base ++ [vcf_base_line snp m],
                vcf_cells := d.vcf_cells ++
                  (if gs.is_genotype then [vcf_cells_line snp m] else []) }
          else pileup_positions_loop fs gs mplpP isTmp rest d

/-! ## Merge and header rewrite (`merge_mtx`, `merge_vcf`, `rewrite_mtx`) -/

/-- The line loop shared by all fragments in `merge_mtx` (lines 686-697):
`k` is the running 1-based global site ordinal (bumped at every blank
line), `m` the running record count; every non-blank line is emitted with
`k` prefixed (`"%ld\t%s\n"`). -/
def mergeLines : List (List Char) → Nat → Nat → Nat × Nat × List (List Char)
  | [], k, m => (k, m, [])
  | l :: ls, k, m =>
      if l = [] then mergeLines ls (k + 1) m
      else
        let r := mergeLines ls k (m + 1)
        (r.1, r.2.1, (natChars k ++ '\t' :: l) :: r.2.2)

/-- `merge_mtx(out, in, n, ns, nr, ret)`: fragments are consumed in shard
order with one shared running state; returns `(*ns, *nr, merged lines)`
with `*ns = k - 1`. -/
def merge_mtx (frags : List (List (List Char))) : Nat × Nat × List (List Char) :=
  let r := mergeLines frags.flatten 1 0
  (r.1 - 1, r.2.1, r.2.2)

/-- The per-matrix merge step of `run_mode_with_fetch` (lines 878-882):
print the stat line computed from the per-shard sums, merge the
fragments, and abort unless the merge-computed site and record counts
equal those sums.  Returns the lines appended to the final file
(stat line then merged body), or `none` on mismatch. -/
def merge_and_check (frags : List (List (List Char))) (ns nr nsmp : Nat) :
    Option (List (List Char)) :=
  let r := merge_mtx frags
  if r.1 = ns ∧ r.2.1 = nr then some (statLine ns nsmp nr :: r.2.2) else none

/-- `rewrite_mtx(fs, ns, nsmp, nr)` (lines 752-792), on line lists: copy
the leading comment lines, insert the stat line, keep the rest; the
"original file has no records while nr != 0" case is the error return 1
(`none` here). -/
def rewrite_mtx (lines : List (List Char)) (ns nsmp nr : Nat) :
    Option (List (List Char)) :=
  let cs := lines.takeWhile lineIsComment
  match lines.dropWhile lineIsComment with
  | [] => if nr ≠ 0 then none else some (cs ++ [statLine ns nsmp nr])
  | l :: ls =>
      if l = [] then
        if nr ≠ 0 then none else some (cs ++ statLine ns nsmp nr :: ls)
      else some (cs ++ statLine ns nsmp nr :: l :: ls)

/-! ## Spec-level views of the driver output (used to relate the direct
and sharded paths) -/

/-- Whether processing one SNP does not hard-fail: `pileup_snp_with_fetch`
reaches a return (no failed assert) with a non-negative code. -/
def siteNonFatal (fs : List csp_bam_fs) (gs : global_settings) (mplpP : csp_mplp_t)
    (snp : csp_snp_t) : Bool :=
  match pileup_snp_with_fetch snp fs mplpP gs with
  | some r => decide (0 ≤ r.1)
  | none => false

/-- The per-site outcome the driver serializes: `some (snp, m)` when the
SNP passes (code 0) with final site state `m`, `none` when it is
filtered. -/
def passOut (fs : List csp_bam_fs) (gs : global_settings) (mplpP : csp_mplp_t)
    (snp : csp_snp_t) : Option (csp_snp_t × csp_mplp_t) :=
  match pileup_snp_with_fetch snp fs mplpP gs with
  | some r => if r.1 = 0 then some (snp, r.2) else none
  | none => none

/-- The passing sites of a SNP list, in list order, with their final
site states. -/
def passSites (fs : List csp_bam_fs) (gs : global_settings) (mplpP : csp_mplp_t)
    (snps : List csp_snp_t) : List (csp_snp_t × csp_mplp_t) :=
  snps.filterMap (passOut fs gs mplpP)

/-- The matrix lines a driver writes for a run of passing sites whose
first site has 1-based ordinal `n + 1`. -/
def sitesMtxLines (isTmp : Bool) (f : csp_plp_t → Nat) :
    Nat → List (csp_snp_t × csp_mplp_t) → List (List Char)
  | _, [] => []
  | n, s :: rest =>
      csp_mplp_to_mtx_lines isTmp (n + 1) (mtxRecords f s.2) ++
        sitesMtxLines isTmp f (n + 1) rest

/-- Total number of nonzero records of one matrix field over a run of
passing sites. -/
def recCount (f : csp_plp_t → Nat) (sites : List (csp_snp_t × csp_mplp_t)) : Nat :=
  (sites.map (fun s => (mtxRecords f s.2).length)).sum

/-- The `thread_data` a driver accumulates on top of `d` for a run of
passing sites. -/
def driverExtend (gs : global_settings) (isTmp : Bool) (d : thread_data)
    (sites : List (csp_snp_t × csp_mplp_t)) : thread_data :=
  { ns := d.ns + sites.length,
    nr_ad := d.nr_ad + (sites.map (fun s => s.2.nr_ad)).sum,
    nr_dp := d.nr_dp + (sites.map (fun s => s.2.nr_dp)).sum,
    nr_oth := d.nr_oth + (sites.map (fun s => s.2.nr_oth)).sum,
    mtx_ad := d.mtx_ad ++ sitesMtxLines isTmp (fun p => p.ad) d.ns sites,
    mtx_dp := d.mtx_dp ++ sitesMtxLines isTmp (fun p => p.dp) d.ns sites,
    mtx_oth := d.mtx_oth ++ sitesMtxLines isTmp (fun p => p.oth) d.ns sites,
    vcf_base := d.vcf_base ++ sites.map (fun s => vcf_base_line s.1 s.2),
    vcf_cells := d.vcf_cells ++
      (if gs.is_genotype then sites.map (fun s => vcf_cells_line s.1 s.2) else []) }

/-! ## The shard coordinator (`run_mode_with_fetch`) -/

/-- The shard partition of the SNP list (lines 838-865): the first
`n - 1` shards get `⌊size/n⌋` SNPs each, the last shard the remainder
(for a nonempty list the remainder shard is always created). -/
def splitShards {α : Type} (l : List α) (n : Nat) : List (List α) :=
  let m := l.length / n
  (List.range (n - 1)).map (fun i => (l.drop (i * m)).take m) ++
    [l.drop ((n - 1) * m)]

/-- The five final output files.  Each is a list of lines; `vcf_cells`
is `none` when genotyping is off. -/
structure final_files where
  mtx_ad : List (List Char)
  mtx_dp : List (List Char)
  mtx_oth : List (List Char)
  vcf_base : List (List Char)
  vcf_cells : Option (List (List Char))
  deriving Repr, DecidableEq

/-- The single-worker path of `run_mode_with_fetch` (lines 954-1011):
one driver over the whole SNP list writing directly to the final files
(which already hold the comment header / VCF headers written by `main`),
then `rewrite_mtx` fills the stat line into each matrix file.
`hdrVcf`/`hdrCells` are the header lines `main` wrote to the VCF files;
`nsample` the roster size. -/
def run_direct (fs : List csp_bam_fs) (gs : global_settings) (mplpP : csp_mplp_t)
    (nsample : Nat) (hdrVcf hdrCells : List (List Char)) (snps : List csp_snp_t) :
    Option final_files :=
  match pileup_positions_loop fs gs mplpP false snps thdata_init with
  | none => none
  | some d =>
      match rewrite_mtx (mtxHeaderChars ++ d.mtx_ad) d.ns nsample d.nr_ad,
            rewrite_mtx (mtxHeaderChars ++ d.mtx_dp) d.ns nsample d.nr_dp,
            rewrite_mtx (mtxHeaderChars ++ d.mtx_oth) d.ns nsample d.nr_oth with
      | some fa, some fd, some fo =>
          some { mtx_ad := fa, mtx_dp := fd, mtx_oth := fo,
                 vcf_base := hdrVcf ++ d.vcf_base,
                 vcf_cells := if gs.is_genotype then some (hdrCells ++ d.vcf_cells)
                              else none }
      | _, _, _ => none

/-- The multi-worker path of `run_mode_with_fetch` (lines 806-953):
partition the SNP list, run one driver per shard against private
temporary fragments, fail if any worker failed, then per matrix sum the
per-shard counts, write the stat line, merge with renumbering and verify
the counts; VCF fragments are concatenated byte-exactly
(`merge_vcf`). -/
def run_sharded (fs : List csp_bam_fs) (gs : global_settings) (mplpP : csp_mplp_t)
    (nsample : Nat) (hdrVcf hdrCells : List (List Char)) (snps : List csp_snp_t)
    (n : Nat) : Option final_files :=
  match (splitShards snps n).mapM
      (fun sh => pileup_positions_loop fs gs mplpP true sh thdata_init) with
  | none => none
  | some tds =>
      let ns := (tds.map thread_data.ns).sum
      match merge_and_check (tds.map thread_data.mtx_ad) ns
              ((tds.map thread_data.nr_ad).sum) nsample,
            merge_and_check (tds.map thread_data.mtx_dp) ns
              ((tds.map thread_data.nr_dp).sum) nsample,
            merge_and_check (tds.map thread_data.mtx_oth) ns
              ((tds.map thread_data.nr_oth).sum) nsample with
      | some ba, some bd, some bo =>
          some { mtx_ad := mtxHeaderChars ++ ba,
                 mtx_dp := mtxHeaderChars ++ bd,
                 mtx_oth := mtxHeaderChars ++ bo,
                 vcf_base := hdrVcf ++ (tds.map thread_data.vcf_base).flatten,
                 vcf_cells := if gs.is_genotype then
                     some (hdrCells ++ (tds.map thread_data.vcf_cells).flatten)
                   else none }
      | _, _, _ => none

/-! ## Concrete example states used by witnesses and counterexamples -/

/-- Example settings: barcode grouping with UMI dedup, permissive read
filters, `minCOUNT 1`, `minMAF 0`. -/
def gsEx : global_settings :=
  { cell_tag := some "CB", umi_tag := some "UR", sample_ids := false,
    min_count := 1, min_maf := ⟨0, 1, by decide, by decide⟩, min_len := 1,
    min_mapq := 0, max_flag := 255, is_genotype := false, double_gl := false }

/-- Example two-group site state with some counted bases. -/
def mplpEx2 : csp_mplp_t :=
  { csp_mplp_prepare ["g1", "g2"] with
      groups := [("g1", { csp_plp_fresh with bc := [1, 2, 0, 0, 3] }),
                 ("g2", { csp_plp_fresh with bc := [0, 4, 0, 1, 0] })] }

/-- Example single-group roster state. -/
def mplpEx1 : csp_mplp_t := csp_mplp_prepare ["AAA"]

/-- Example pushed read record (first read of UMI `U1`). -/
def pileupEx1 : csp_pileup_t := { cb := "AAA", umi := "U1", base := 'C', qual := 30 }

/-- Example pushed read record (second read of UMI `U1`, different base). -/
def pileupEx2 : csp_pileup_t := { cb := "AAA", umi := "U1", base := 'T', qual := 7 }

/-- Example aggregated state with a supplied ref/alt pair (A and T) whose
supplied alt has a low count, while another base (G) is frequent. -/
def mplpEx10 : csp_mplp_t :=
  { csp_mplp_prepare ["s"] with
      groups := [("s", { csp_plp_fresh with bc := [10, 0, 8, 1, 0] })],
      ref_idx := 0, alt_idx := 3 }

/-- Example settings with a positive minor-allele-frequency threshold
(`minMAF 0.3`, given as the reduced fraction 3/10). -/
def gsEx10 : global_settings :=
  { gsEx with min_count := 5, min_maf := ⟨3, 10, by decide, by decide⟩ }

/-- Example read: 5M 3D 4M starting at reference position 0, with both
tags present. -/
def bamEx : bam1_t :=
  { pos := 0, cigar := [(0, 5), (2, 3), (0, 4)],
    seq := "ACGTACGTA".data, qual := [30, 31, 32, 33, 34, 35, 36, 37, 38],
    mapq := 60, flag := 0, umi := some "U1", cb := some "AAA" }

/-- Example SNP at chromosome "1", position 2, with supplied ref A and
alt G. -/
def snpEx : csp_snp_t := { chr := "1", pos := 2, ref := some 'A', alt := some 'G' }

/-- Example input source whose header does not contain the SNP's
chromosome (`csp_sam_hdr_name2id` returns a negative id). -/
def srcMissing : csp_bam_fs := { name2id := fun _ => -1, fetch := fun _ _ => [] }

/-- Example input source that resolves every chromosome and returns the
example read for every fetch. -/
def srcGood : csp_bam_fs := { name2id := fun _ => 0, fetch := fun _ _ => [bamEx] }

/-! ## Helper lemmas -/

theorem sum5_vadd5 (a b : List Nat) : sum5 (vadd5 a b) = sum5 a + sum5 b := by
  simp [sum5, vadd5, List.getD]
  omega

theorem foldl_vadd5_sum (l : List (String × csp_plp_t)) :
    ∀ a : List Nat,
      sum5 (l.foldl (fun acc p => vadd5 acc p.2.bc) a)
        = sum5 a + (l.map (fun p => sum5 p.2.bc)).sum := by
  induction l with
  | nil => intro a; simp
  | cons hd tl ih =>
      intro a
      simp only [List.foldl_cons, List.map_cons, List.sum_cons]
      rw [ih, sum5_vadd5]
      omega

theorem seq_nt16_idx2int_lt (c : Char) : seq_nt16_idx2int c < 5 := by
  unfold seq_nt16_idx2int
  split_ifs <;> omega

theorem sum5_incAt (bc : List Nat) (i : Nat) (hl : bc.length = 5) (hi : i < 5) :
    sum5 (incAt bc i) = sum5 bc + 1 := by
  rcases bc with _ | ⟨a, _ | ⟨b, _ | ⟨c, _ | ⟨d, _ | ⟨e, rest⟩⟩⟩⟩⟩ <;>
    simp_all
  have hr : rest = [] := by
    cases rest
    · rfl
    · simp at hl
  subst hr
  interval_cases i <;> simp [incAt, sum5, List.getD] <;> omega

theorem incAt_length (bc : List Nat) (i : Nat) : (incAt bc i).length = bc.length := by
  simp [incAt]

theorem lookupGroup_updateGroup_self (l : List (String × csp_plp_t)) (k : String)
    (v nv : csp_plp_t) (h : lookupGroup l k = some v) :
    lookupGroup (updateGroup l k nv) k = some nv := by
  induction l with
  | nil => simp [lookupGroup] at h
  | cons hd tl ih =>
      by_cases hk : hd.1 = k
      · simp [lookupGroup, updateGroup, hk]
      · simp only [lookupGroup, updateGroup] at h ⊢
        rcases hd with ⟨k0, v0⟩
        simp only [hk, if_false] at h ⊢
        simp only [lookupGroup, hk, if_false]
        exact ih h

theorem updateGroup_self_eq (l : List (String × csp_plp_t)) (k : String)
    (v : csp_plp_t) (h : lookupGroup l k = some v) :
    updateGroup l k v = l := by
  induction l with
  | nil => rfl
  | cons hd tl ih =>
      rcases hd with ⟨k0, v0⟩
      by_cases hk : k0 = k
      · simp only [lookupGroup, hk, if_true] at h
        cases h
        simp [updateGroup, hk]
      · simp only [lookupGroup, hk, if_false] at h
        simp [updateGroup, hk, ih h]

/-! ## C2: conservation of counts in the summing step of `csp_mplp_stat` -/

/-- C2: for every SNP that reaches aggregation, after the summing step of
`csp_mplp_stat` (lines 320-327) the site-wide total count equals the sum
of the five site-wide base counts, each sample group's total count equals
the sum of that group's five base counts, and the site-wide total is
exactly the sum over all groups of their base counts (no pushed
observation is double-counted or lost).  The hypotheses state that the
counters start from the prepared/reset state, as `csp_mplp_prepare` /
`csp_mplp_reset` guarantee. -/
theorem csp_mplp_stat_sum_conservation (mplp : csp_mplp_t)
    (h0 : ∀ p ∈ mplp.groups, p.2.tc = 0)
    (hbc : mplp.bc = [0, 0, 0, 0, 0]) (htc : mplp.tc = 0) :
    ((csp_mplp_sum mplp).tc = sum5 (csp_mplp_sum mplp).bc) ∧
    (∀ p ∈ (csp_mplp_sum mplp).groups, p.2.tc = sum5 p.2.bc) ∧
    ((csp_mplp_sum mplp).tc = (mplp.groups.map (fun p => sum5 p.2.bc)).sum) := by
  refine ⟨?_, ?_, ?_⟩
  · simp [csp_mplp_sum, htc]
  · intro p hp
    simp only [csp_mplp_sum, List.mem_map] at hp
    obtain ⟨q, hq, rfl⟩ := hp
    simp [plp_sum, h0 q hq]
  · simp only [csp_mplp_sum]
    rw [foldl_vadd5_sum, htc, hbc]
    simp [sum5]

/-- Witness for C2 at a concrete two-group state. -/
theorem csp_mplp_stat_sum_conservation_witness :
    ((∀ p ∈ mplpEx2.groups, p.2.tc = 0) ∧ mplpEx2.bc = [0, 0, 0, 0, 0] ∧
      mplpEx2.tc = 0) ∧
    ((csp_mplp_sum mplpEx2).tc = sum5 (csp_mplp_sum mplpEx2).bc ∧
      (csp_mplp_sum mplpEx2).tc = 11) :=
  ⟨⟨by decide, by decide, by decide⟩,
   (csp_mplp_stat_sum_conservation mplpEx2 (by decide) (by decide) (by decide)).1,
   by decide⟩

/-! ## C3: UMI-dedup idempotence of `csp_mplp_push` -/

theorem mplp_eta (m : csp_mplp_t) : ({ m with groups := m.groups } : csp_mplp_t) = m :=
  rfl

theorem plp_count_hug (p : csp_pileup_t) (plp : csp_plp_t) :
    (plp_count p plp).hug = plp.hug := rfl

/-- A push whose UMI is already in the target group's UMI set returns 0
and leaves the whole state unchanged (barcode mode). -/
theorem push_dup_state_unchanged (gs : global_settings) (M : csp_mplp_t) (sid : Int)
    (q : csp_pileup_t) (plp1 : csp_plp_t)
    (hb : use_barcodes gs = true) (hu : use_umi gs = true)
    (hlkq : lookupGroup M.groups q.cb = some plp1)
    (hcq : plp1.hug.contains q.umi = true) :
    csp_mplp_push q M sid gs = (0, M) := by
  have hmem : q.umi ∈ plp1.hug := by simpa using hcq
  have hupd := updateGroup_self_eq M.groups q.cb plp1 hlkq
  simp [csp_mplp_push, hb, hlkq, hu, plp_push_umi, hmem, hupd, mplp_eta]

/-- C3: with UMI grouping enabled, pushing any number of reads that share
one UMI string into one (rostered) sample group counts exactly the first
one: the first push returns 0 and records the first read's base and
quality, every later push with the same UMI and barcode returns 0 and
leaves the state unchanged, folding the whole sequence equals the first
push alone, and the group's total base count grows by exactly 1. -/
theorem umi_dedup_idempotent (gs : global_settings) (mplp : csp_mplp_t)
    (sid : Int) (p1 : csp_pileup_t) (ps : List csp_pileup_t) (plp0 : csp_plp_t)
    (hb : use_barcodes gs = true) (hu : use_umi gs = true)
    (hlk : lookupGroup mplp.groups p1.cb = some plp0)
    (hlen : plp0.bc.length = 5)
    (hnew : plp0.hug.contains p1.umi = false)
    (hps : ∀ q ∈ ps, q.cb = p1.cb ∧ q.umi = p1.umi) :
    (csp_mplp_push p1 mplp sid gs).1 = 0 ∧
    (∀ q : csp_pileup_t, q.cb = p1.cb → q.umi = p1.umi →
        csp_mplp_push q (csp_mplp_push p1 mplp sid gs).2 sid gs
          = (0, (csp_mplp_push p1 mplp sid gs).2)) ∧
    pushAll (p1 :: ps) mplp sid gs = (csp_mplp_push p1 mplp sid gs).2 ∧
    (lookupGroup (csp_mplp_push p1 mplp sid gs).2.groups p1.cb
        = some (plp_count p1 { plp0 with hug := p1.umi :: plp0.hug }) ∧
      sum5 (plp_count p1 { plp0 with hug := p1.umi :: plp0.hug }).bc
        = sum5 plp0.bc + 1) := by
  have hnew' : ¬ p1.umi ∈ plp0.hug := by simpa using hnew
  have hpush : csp_mplp_push p1 mplp sid gs
      = (0, { mplp with groups := (updateGroup mplp.groups p1.cb
                (plp_count p1 { plp0 with hug := p1.umi :: plp0.hug })) }) := by
    simp [csp_mplp_push, hb, hlk, hu, plp_push_umi, hnew']
  set plp1 := plp_count p1 { plp0 with hug := p1.umi :: plp0.hug } with hplp1
  have hlk1 : lookupGroup (csp_mplp_push p1 mplp sid gs).2.groups p1.cb = some plp1 := by
    rw [hpush]
    exact lookupGroup_updateGroup_self mplp.groups p1.cb plp0 plp1 hlk
  have hcontains : plp1.hug.contains p1.umi = true := by
    rw [hplp1, plp_count_hug]
    simp [List.contains_cons]
  have hdup : ∀ q : csp_pileup_t, q.cb = p1.cb → q.umi = p1.umi →
      csp_mplp_push q (csp_mplp_push p1 mplp sid gs).2 sid gs
        = (0, (csp_mplp_push p1 mplp sid gs).2) := by
    intro q hqc hqu
    refine push_dup_state_unchanged gs _ sid q plp1 hb hu ?_ ?_
    · rw [hqc]; exact hlk1
    · rw [hqu]; exact hcontains
  refine ⟨by rw [hpush], hdup, ?_, hlk1, ?_⟩
  · have hstep : ∀ ps' : List csp_pileup_t, (∀ q ∈ ps', q.cb = p1.cb ∧ q.umi = p1.umi) →
        pushAll ps' (csp_mplp_push p1 mplp sid gs).2 sid gs
          = (csp_mplp_push p1 mplp sid gs).2 := by
      intro ps'
      induction ps' with
      | nil => intro _; rfl
      | cons q qs ih =>
          intro hmem
          have hq := hmem q (by simp)
          have : (csp_mplp_push q (csp_mplp_push p1 mplp sid gs).2 sid gs).2
              = (csp_mplp_push p1 mplp sid gs).2 := by
            rw [hdup q hq.1 hq.2]
          simp only [pushAll, List.foldl_cons] at ih ⊢
          rw [this]
          exact ih (fun r hr => hmem r (by simp [hr]))
    simp only [pushAll, List.foldl_cons]
    exact hstep ps hps
  · rw [hplp1]
    simp only [plp_count]
    exact sum5_incAt plp0.bc _ hlen (seq_nt16_idx2int_lt p1.base)

/-- Witness for C3: two reads sharing UMI `U1` (bases C then T) into the
one-barcode roster; the fold equals the single first push and the
group's total count is 1. -/
theorem umi_dedup_idempotent_witness :
    (use_barcodes gsEx = true ∧ use_umi gsEx = true ∧
      lookupGroup mplpEx1.groups pileupEx1.cb = some csp_plp_fresh) ∧
    pushAll [pileupEx1, pileupEx2] mplpEx1 (-1) gsEx
      = (csp_mplp_push pileupEx1 mplpEx1 (-1) gsEx).2 ∧
    sum5 (plp_count pileupEx1
        { csp_plp_fresh with hug := pileupEx1.umi :: csp_plp_fresh.hug }).bc
      = sum5 csp_plp_fresh.bc + 1 :=
  ⟨⟨by decide, by decide, by decide⟩,
   (umi_dedup_idempotent gsEx mplpEx1 (-1) pileupEx1 [pileupEx2] csp_plp_fresh
      (by decide) (by decide) (by decide) (by decide) (by decide)
      (by decide)).2.2.1,
   (umi_dedup_idempotent gsEx mplpEx1 (-1) pileupEx1 [pileupEx2] csp_plp_fresh
      (by decide) (by decide) (by decide) (by decide) (by decide)
      (by decide)).2.2.2.2⟩

/-! ## C5 (corrected): outcomes of `csp_mplp_push` -/

/-- C5 counterexample: the duplicate-UMI outcome is not distinguishable
from the counted outcome.  Pushing the same record twice: the first push
(Counted) returns code 0; the second push, whose UMI was already seen for
that sample group, also returns code 0 — the same value — while leaving
the state unchanged, so the caller cannot tell the two outcomes apart
(the C falls through to `return 0` after the `// else: do nothing`
branch, lines 298-304). -/
theorem csp_mplp_push_dup_umi_counterexample :
    (csp_mplp_push pileupEx1 mplpEx1 (-1) gsEx).1 = 0 ∧
    (csp_mplp_push pileupEx1
        (csp_mplp_push pileupEx1 mplpEx1 (-1) gsEx).2 (-1) gsEx).1 = 0 ∧
    (csp_mplp_push pileupEx1
        (csp_mplp_push pileupEx1 mplpEx1 (-1) gsEx).2 (-1) gsEx).2
      = (csp_mplp_push pileupEx1 mplpEx1 (-1) gsEx).2 := by
  decide

/-- C5 (amended): `csp_mplp_push` has three caller-distinguishable
outcome classes, not four: code 0 covers both Counted and DuplicateUMI
(a record whose UMI was already seen for the group returns 0 with the
state unchanged — not an error, but indistinguishable from Counted),
code 1 is UnknownGroup (barcode not in the roster; non-fatal), and a
negative code is an internal-consistency error (fatal to the enclosing
SNP). -/
theorem csp_mplp_push_outcome_classes (p : csp_pileup_t) (m : csp_mplp_t)
    (sid : Int) (gs : global_settings) :
    ((csp_mplp_push p m sid gs).1 = 0 ∨ (csp_mplp_push p m sid gs).1 = 1 ∨
      (csp_mplp_push p m sid gs).1 = -1) ∧
    (use_barcodes gs = true → lookupGroup m.groups p.cb = none →
      csp_mplp_push p m sid gs = (1, m)) ∧
    (use_barcodes gs = true → use_umi gs = true →
      ∀ plp, lookupGroup m.groups p.cb = some plp →
        plp.hug.contains p.umi = true → csp_mplp_push p m sid gs = (0, m)) ∧
    (use_barcodes gs = true → use_umi gs = true →
      ∀ plp, lookupGroup m.groups p.cb = some plp →
        plp.hug.contains p.umi = false →
        csp_mplp_push p m sid gs
          = (0, { m with groups := (updateGroup m.groups p.cb
                    (plp_count p { plp with hug := p.umi :: plp.hug })) })) := by
  refine ⟨?_, ?_, ?_, ?_⟩
  · unfold csp_mplp_push
    by_cases hb : use_barcodes gs = true
    · simp only [hb, if_true]
      cases lookupGroup m.groups p.cb <;> simp
    · by_cases hs : use_sid gs = true
      · simp only [hb, hs, if_true, if_false, Bool.false_eq_true]
        cases hg : m.groups.get? sid.toNat with
        | none => simp
        | some kv => cases kv; simp
      · simp [hb, hs]
  · intro hb hnone
    simp [csp_mplp_push, hb, hnone]
  · intro hb hu plp hlk hc
    exact push_dup_state_unchanged gs m sid p plp hb hu hlk hc
  · intro hb hu plp hlk hc
    have hmem : ¬ p.umi ∈ plp.hug := by simpa using hc
    simp [csp_mplp_push, hb, hlk, hu, plp_push_umi, hmem]

/-- Witness for C5 (amended): the unknown-barcode outcome at a concrete
input returns `(1, state unchanged)`. -/
theorem csp_mplp_push_outcome_classes_witness :
    (use_barcodes gsEx = true ∧
      lookupGroup mplpEx1.groups "ZZZ" = none) ∧
    csp_mplp_push { cb := "ZZZ", umi := "U9", base := 'A', qual := 3 }
        mplpEx1 (-1) gsEx = (1, mplpEx1) :=
  ⟨⟨by decide, by decide⟩,
   (csp_mplp_push_outcome_classes
      { cb := "ZZZ", umi := "U9", base := 'A', qual := 3 } mplpEx1 (-1) gsEx).2.1
     (by decide) (by decide)⟩

/-! ## C6 and C10: allele inference and the MAF filter in `csp_mplp_stat` -/

theorem plp_finalize_ad (gs : global_settings) (r a : Nat) (plp : csp_plp_t) :
    (plp_finalize gs r a plp).ad = plp.bc.getD a 0 := by
  unfold plp_finalize plp_genotype
  split <;> rfl

theorem plp_finalize_dp (gs : global_settings) (r a : Nat) (plp : csp_plp_t) :
    (plp_finalize gs r a plp).dp = plp.bc.getD r 0 + plp.bc.getD a 0 := by
  unfold plp_finalize plp_genotype
  split <;> rfl

theorem plp_finalize_bc (gs : global_settings) (r a : Nat) (plp : csp_plp_t) :
    (plp_finalize gs r a plp).bc = plp.bc := by
  unfold plp_finalize plp_genotype
  split <;> rfl

theorem csp_mplp_sum_ref (m : csp_mplp_t) :
    (csp_mplp_sum m).ref_idx = m.ref_idx := rfl

theorem csp_mplp_install_inf_rid (m : csp_mplp_t) :
    (csp_mplp_install m).inf_rid = m.inf_rid := by
  unfold csp_mplp_install; split <;> rfl

theorem csp_mplp_install_inf_aid (m : csp_mplp_t) :
    (csp_mplp_install m).inf_aid = m.inf_aid := by
  unfold csp_mplp_install; split <;> rfl

theorem csp_mplp_install_ref_pos (m : csp_mplp_t)
    (h : m.ref_idx < 0 ∨ m.alt_idx < 0) :
    (csp_mplp_install m).ref_idx = m.inf_rid ∧
    (csp_mplp_install m).alt_idx = m.inf_aid := by
  unfold csp_mplp_install; rw [if_pos h]; exact ⟨rfl, rfl⟩

theorem csp_mplp_install_ref_neg (m : csp_mplp_t)
    (h : ¬(m.ref_idx < 0 ∨ m.alt_idx < 0)) :
    (csp_mplp_install m).ref_idx = m.ref_idx ∧
    (csp_mplp_install m).alt_idx = m.alt_idx := by
  unfold csp_mplp_install; rw [if_neg h]; exact ⟨rfl, rfl⟩

theorem csp_mplp_sum_alt (m : csp_mplp_t) :
    (csp_mplp_sum m).alt_idx = m.alt_idx := rfl

/-- The cross-multiplied MAF test is exactly the rational inequality
`bc < tc * min_maf` of line 330. -/
theorem mafLt_iff (bc tc : Nat) (maf : ℚ) :
    mafLt bc tc maf ↔ (bc : ℚ) < (tc : ℚ) * maf := by
  unfold mafLt
  have hden : (0 : ℚ) < (maf.den : ℚ) := by exact_mod_cast maf.den_pos
  have hmul : maf * (maf.den : ℚ) = (maf.num : ℚ) := by
    rw [mul_comm]
    exact_mod_cast Rat.den_mul_eq_num maf
  have h1 : ((bc : Int) * (maf.den : Int) < (tc : Int) * maf.num)
      ↔ ((bc : ℚ) * (maf.den : ℚ) < (tc : ℚ) * (maf.num : ℚ)) := by
    constructor <;> intro h <;> exact_mod_cast h
  have h2 : (tc : ℚ) * (maf.num : ℚ) = (tc : ℚ) * maf * (maf.den : ℚ) := by
    rw [mul_assoc, hmul]
  rw [h1, h2]
  exact mul_lt_mul_right hden

/-- C6: in `csp_mplp_stat` (lines 328-335), the (refIndex, altIndex)
inference runs for every SNP that passes the minimum-aggregate-count
check — whatever ref/alt the input supplied — and, on success, the
inferred pair is installed as the SNP's ref/alt for all downstream
AD/DP/OTH computation exactly when the supplied pair is not valid
(`ref_idx < 0 || alt_idx < 0`); a valid supplied pair is kept
unchanged. -/
theorem csp_mplp_stat_inference_install (mplp : csp_mplp_t) (gs : global_settings)
    (hc : ¬ (csp_mplp_sum mplp).tc < gs.min_count) :
    ((csp_mplp_stat mplp gs).2.inf_rid = (csp_infer_allele (csp_mplp_sum mplp).bc).1 ∧
     (csp_mplp_stat mplp gs).2.inf_aid = (csp_infer_allele (csp_mplp_sum mplp).bc).2) ∧
    ((csp_mplp_stat mplp gs).1 = 0 →
      (((mplp.ref_idx < 0 ∨ mplp.alt_idx < 0) →
          (csp_mplp_stat mplp gs).2.ref_idx = (csp_infer_allele (csp_mplp_sum mplp).bc).1 ∧
          (csp_mplp_stat mplp gs).2.alt_idx = (csp_infer_allele (csp_mplp_sum mplp).bc).2) ∧
       (¬(mplp.ref_idx < 0 ∨ mplp.alt_idx < 0) →
          (csp_mplp_stat mplp gs).2.ref_idx = mplp.ref_idx ∧
          (csp_mplp_stat mplp gs).2.alt_idx = mplp.alt_idx) ∧
       ((csp_mplp_stat mplp gs).2.ad
          = (csp_mplp_stat mplp gs).2.bc.getD (csp_mplp_stat mplp gs).2.alt_idx.toNat 0) ∧
       ((csp_mplp_stat mplp gs).2.dp
          = (csp_mplp_stat mplp gs).2.bc.getD (csp_mplp_stat mplp gs).2.ref_idx.toNat 0
              + (csp_mplp_stat mplp gs).2.ad) ∧
       (∀ p ∈ (csp_mplp_stat mplp gs).2.groups,
          p.2.ad = p.2.bc.getD (csp_mplp_stat mplp gs).2.alt_idx.toNat 0 ∧
          p.2.dp = p.2.bc.getD (csp_mplp_stat mplp gs).2.ref_idx.toNat 0 + p.2.ad))) := by
  unfold csp_mplp_stat
  dsimp only
  rw [if_neg hc]
  set m2 := csp_mplp_infer (csp_mplp_sum mplp) with hm2
  have hm2ra : m2.ref_idx = mplp.ref_idx ∧ m2.alt_idx = mplp.alt_idx := ⟨rfl, rfl⟩
  have hm2inf : m2.inf_rid = (csp_infer_allele (csp_mplp_sum mplp).bc).1 ∧
      m2.inf_aid = (csp_infer_allele (csp_mplp_sum mplp).bc).2 := ⟨rfl, rfl⟩
  by_cases hmaf : mafLt (m2.bc.getD m2.inf_aid.toNat 0) m2.tc gs.min_maf
  · rw [if_pos hmaf]
    refine ⟨⟨hm2inf.1, hm2inf.2⟩, ?_⟩
    intro h0
    simp at h0
  · rw [if_neg hmaf]
    refine ⟨⟨?_, ?_⟩, ?_⟩
    · show (csp_mplp_outputs gs (csp_mplp_install m2)).inf_rid = _
      rw [show (csp_mplp_outputs gs (csp_mplp_install m2)).inf_rid
            = (csp_mplp_install m2).inf_rid from rfl,
          csp_mplp_install_inf_rid]
      exact hm2inf.1
    · show (csp_mplp_outputs gs (csp_mplp_install m2)).inf_aid = _
      rw [show (csp_mplp_outputs gs (csp_mplp_install m2)).inf_aid
            = (csp_mplp_install m2).inf_aid from rfl,
          csp_mplp_install_inf_aid]
      exact hm2inf.2
    intro _
    have hrefl : ∀ x : csp_mplp_t, (csp_mplp_outputs gs x).ref_idx = x.ref_idx ∧
        (csp_mplp_outputs gs x).alt_idx = x.alt_idx := fun _ => ⟨rfl, rfl⟩
    refine ⟨?_, ?_, rfl, rfl, ?_⟩
    · intro hra
      have hra2 : m2.ref_idx < 0 ∨ m2.alt_idx < 0 := by
        rw [hm2ra.1, hm2ra.2]; exact hra
      have := csp_mplp_install_ref_pos m2 hra2
      exact ⟨by rw [(hrefl _).1, this.1, hm2inf.1],
             by rw [(hrefl _).2, this.2, hm2inf.2]⟩
    · intro hra
      have hra2 : ¬(m2.ref_idx < 0 ∨ m2.alt_idx < 0) := by
        rw [hm2ra.1, hm2ra.2]; exact hra
      have := csp_mplp_install_ref_neg m2 hra2
      exact ⟨by rw [(hrefl _).1, this.1, hm2ra.1],
             by rw [(hrefl _).2, this.2, hm2ra.2]⟩
    · intro p hp
      have hpg : p ∈ ((csp_mplp_install m2).groups.map (fun q =>
          (q.1, plp_finalize gs (csp_mplp_install m2).ref_idx.toNat
                  (csp_mplp_install m2).alt_idx.toNat q.2))) := hp
      simp only [List.mem_map] at hpg
      obtain ⟨q, _, rfl⟩ := hpg
      exact ⟨by rw [plp_finalize_ad, plp_finalize_bc, (hrefl _).2],
             by rw [plp_finalize_dp, plp_finalize_bc, plp_finalize_ad, (hrefl _).1]⟩

/-- Witness for C6: the example state `mplpEx10` (supplied valid ref A /
alt T, counts A:10 G:8 T:1) passes the count filter; the supplied pair is
kept while the inference fields hold the inferred pair (A, G). -/
theorem csp_mplp_stat_inference_install_witness :
    (¬ (csp_mplp_sum mplpEx10).tc < gsEx10.min_count) ∧
    ((csp_mplp_stat mplpEx10 gsEx10).2.inf_rid
        = (csp_infer_allele (csp_mplp_sum mplpEx10).bc).1 ∧
     (csp_mplp_stat mplpEx10 gsEx10).2.inf_aid
        = (csp_infer_allele (csp_mplp_sum mplpEx10).bc).2) ∧
    ((csp_mplp_stat mplpEx10 gsEx10).1 = 0 →
      ¬(mplpEx10.ref_idx < 0 ∨ mplpEx10.alt_idx < 0) →
      (csp_mplp_stat mplpEx10 gsEx10).2.ref_idx = mplpEx10.ref_idx ∧
      (csp_mplp_stat mplpEx10 gsEx10).2.alt_idx = mplpEx10.alt_idx) :=
  ⟨by decide,
   (csp_mplp_stat_inference_install mplpEx10 gsEx10 (by decide)).1,
   fun h0 hra =>
     ((csp_mplp_stat_inference_install mplpEx10 gsEx10 (by decide)).2 h0).2.1 hra⟩

set_option maxRecDepth 4000 in
/-- C10: the minor-allele-frequency rejection in `csp_mplp_stat`
(line 330) compares the count of the inferred alt `mplp->bc[mplp->inf_aid]`
against `totalCount × minMAF` for every SNP: the return code is entirely
independent of the supplied ref/alt indices, and at the concrete state
`mplpEx10` (supplied alt T with count 1, threshold 5.7) the SNP still
passes because the inferred alt G has count 8, even though the supplied
alt's own count is below the threshold. -/
theorem csp_mplp_stat_maf_uses_inferred_alt :
    (∀ (m : csp_mplp_t) (gs : global_settings) (r a r' a' : Int),
        (csp_mplp_stat { m with ref_idx := r, alt_idx := a } gs).1
          = (csp_mplp_stat { m with ref_idx := r', alt_idx := a' } gs).1) ∧
    ((csp_mplp_stat mplpEx10 gsEx10).1 = 0 ∧
      ((csp_mplp_sum mplpEx10).bc.getD mplpEx10.alt_idx.toNat 0 : ℚ)
        < ((csp_mplp_sum mplpEx10).tc : ℚ) * gsEx10.min_maf) := by
  refine ⟨?_, by decide, (mafLt_iff _ _ _).mp (by decide)⟩
  intro m gs r a r' a'
  have hsum : ∀ r0 a0 : Int,
      csp_mplp_sum { m with ref_idx := r0, alt_idx := a0 }
        = { csp_mplp_sum m with ref_idx := r0, alt_idx := a0 } := fun _ _ => rfl
  unfold csp_mplp_stat
  dsimp only
  rw [hsum r a, hsum r' a']
  dsimp only [csp_mplp_infer]
  split_ifs <;> rfl

/-! ## C7: the read resolver -/

/-- The aligned length accumulated through the covering operation plus
the match-class length of the remaining operations equals the initial
accumulator plus the match-class length of the whole operation list: the
second CIGAR loop completes the sum over the entire read. -/
theorem cigarFind_laln (pos : Nat) :
    ∀ (ops : List (Nat × Nat)) (x y laln op l px py laln' : Nat)
      (rest : List (Nat × Nat)),
      cigarFind pos ops x y laln = some ((op, l), px, py, laln', rest) →
      laln' + totalAlnLen rest = laln + totalAlnLen ops := by
  intro ops
  induction ops with
  | nil =>
      intro x y laln op l px py laln' rest h
      simp [cigarFind] at h
  | cons hd tl ih =>
      intro x y laln op l px py laln' rest h
      rcases hd with ⟨o, len⟩
      simp only [cigarFind] at h
      by_cases hbr : (if isMatchOp o || isDelSkipOp o then x + len else x) > pos
      · rw [if_pos hbr] at h
        simp only [Option.some.injEq, Prod.mk.injEq] at h
        obtain ⟨⟨ho, _⟩, _, _, hlaln, hrest⟩ := h
        subst ho
        rw [← hlaln, ← hrest]
        simp only [totalAlnLen]
        split_ifs <;> omega
      · rw [if_neg hbr] at h
        have := ih _ _ _ _ _ _ _ _ _ h
        simp only [totalAlnLen]
        split_ifs at this ⊢ <;> omega

/-- When the walk starts at a reference coordinate not beyond the target,
the covering operation is always match-class or deletion/reference-skip
(the C comment "cannot be other operations; otherwise a bug"). -/
theorem cigarFind_covering_class (pos : Nat) :
    ∀ (ops : List (Nat × Nat)) (x y laln op l px py laln' : Nat)
      (rest : List (Nat × Nat)),
      x ≤ pos →
      cigarFind pos ops x y laln = some ((op, l), px, py, laln', rest) →
      isMatchOp op = true ∨ isDelSkipOp op = true := by
  intro ops
  induction ops with
  | nil =>
      intro x y laln op l px py laln' rest _ h
      simp [cigarFind] at h
  | cons hd tl ih =>
      intro x y laln op l px py laln' rest hx h
      rcases hd with ⟨o, len⟩
      simp only [cigarFind] at h
      by_cases hbr : (if isMatchOp o || isDelSkipOp o then x + len else x) > pos
      · rw [if_pos hbr] at h
        simp only [Option.some.injEq, Prod.mk.injEq] at h
        obtain ⟨⟨ho, _⟩, _, _, _, _⟩ := h
        subst ho
        by_cases hcl : (isMatchOp o || isDelSkipOp o) = true
        · rcases Bool.or_eq_true_iff.mp hcl with h' | h'
          · exact Or.inl h'
          · exact Or.inr h'
        · rw [if_neg hcl] at hbr
          omega
      · rw [if_neg hbr] at h
        have hx' : (if (isMatchOp o || isDelSkipOp o) = true then x + len else x) ≤ pos := by
          omega
        exact ih _ _ _ _ _ _ _ _ _ hx' h

/-- C7: for every read whose start is at or before the target position
and whose per-read filters (tags, mapping quality, flag) pass: the
covering operation is located by `cigarFind`; the aligned length the
minimum-length filter sees is accumulated over the *entire* operation
list (operations after the covering one included); if the covering
operation is match-class, the returned base and quality are those at
query offset `py + (pos - px)` where `px`, `py` are the reference and
query coordinates at the start of that operation; if it is a deletion or
reference-skip the read is rejected (return 2). -/
theorem pileup_read_with_fetch_resolution (pos : Nat) (b : bam1_t)
    (gs : global_settings) (op l px py laln : Nat) (rest : List (Nat × Nat))
    (htag : (use_umi gs && b.umi.isNone) = false)
    (hcb : (use_barcodes gs && b.cb.isNone) = false)
    (hmapq : ¬ b.mapq < gs.min_mapq)
    (hflag : ¬ gs.max_flag < b.flag)
    (hpos : ¬ pos < b.pos)
    (hfind : cigarFind pos b.cigar b.pos 0 0 = some ((op, l), px, py, laln, rest)) :
    (laln + totalAlnLen rest = totalAlnLen b.cigar) ∧
    (isMatchOp op = true →
      pileup_read_with_fetch pos b gs
        = some (if laln + totalAlnLen rest < gs.min_len then ReadRes.filtered
                else ReadRes.ok
                  { cb := b.cb.getD "", umi := b.umi.getD "",
                    base := b.seq.getD (py + (pos - px)) 'N',
                    qual := b.qual.getD (py + (pos - px)) 0 }
                  (py + (pos - px)) (laln + totalAlnLen rest))) ∧
    (isDelSkipOp op = true →
      pileup_read_with_fetch pos b gs = some ReadRes.filtered) := by
  have hA : laln + totalAlnLen rest = totalAlnLen b.cigar := by
    have := cigarFind_laln pos b.cigar b.pos 0 0 op l px py laln rest hfind
    omega
  have hcls := cigarFind_covering_class pos b.cigar b.pos 0 0 op l px py laln rest
    (by omega) hfind
  refine ⟨hA, ?_, ?_⟩
  · intro hmatch
    unfold pileup_read_with_fetch
    simp only [htag, hcb, Bool.false_eq_true, if_false, if_neg hmapq,
      if_neg hflag, if_neg hpos, hfind, hmatch, if_true]
    split_ifs <;> rfl
  · intro hdel
    have hnm : isMatchOp op = false := by
      rcases Bool.or_eq_true_iff.mp hdel with h' | h'
      · have h2 : op = BAM_CDEL := by simpa using h'
        subst h2; rfl
      · have h2 : op = BAM_CREF_SKIP := by simpa using h'
        subst h2; rfl
    unfold pileup_read_with_fetch
    simp only [htag, hcb, Bool.false_eq_true, if_false, if_neg hmapq,
      if_neg hflag, if_neg hpos, hfind, hnm, hdel, if_true]

/-- Witness for C7: resolving the example read (5M 3D 4M) at position 2
yields the base at query offset 2 and the aligned length 9 accumulated
over the whole CIGAR (the 4M after the covering operation included). -/
theorem pileup_read_with_fetch_resolution_witness :
    ((use_umi gsEx && bamEx.umi.isNone) = false ∧
      cigarFind 2 bamEx.cigar bamEx.pos 0 0
        = some ((0, 5), 0, 0, 5, [(2, 3), (0, 4)])) ∧
    pileup_read_with_fetch 2 bamEx gsEx
      = some (ReadRes.ok { cb := "AAA", umi := "U1", base := 'G', qual := 32 } 2 9) :=
  ⟨⟨by decide, by decide⟩,
   ((pileup_read_with_fetch_resolution 2 bamEx gsEx 0 5 0 0 5 [(2, 3), (0, 4)]
      (by decide) (by decide) (by decide) (by decide) (by decide)
      (by decide)).2.1 (by decide)).trans (by decide)⟩

/-! ## C4 (corrected): a missing chromosome skips the whole SNP -/

/-- C4 counterexample: in `pileup_snp_with_fetch`, when source 0 cannot
resolve the SNP's chromosome the whole SNP is dropped (`state = 1; goto
fail` at line 443): the call returns code 1 with no read pushed — the
remaining source is never iterated — even though running against the
remaining source alone succeeds (code 0) with its read counted.  This
contradicts the claim that only the failing source is skipped and the
remaining sources are still iterated and their reads still pushed. -/
theorem pileup_snp_missing_chrom_counterexample :
    pileup_snp_with_fetch snpEx [srcMissing, srcGood] mplpEx1 gsEx
      = some (1, { mplpEx1 with ref_idx := 0, alt_idx := 2 }) ∧
    (pileup_snp_with_fetch snpEx [srcGood] mplpEx1 gsEx).map Prod.fst = some 0 ∧
    ((pileup_snp_with_fetch snpEx [srcGood] mplpEx1 gsEx).map
        (fun r => lookupGroup r.2.groups "AAA")).map (Option.map (fun p => p.bc))
      = some (some [0, 0, 1, 0, 0]) := by
  refine ⟨by decide, by decide, by decide⟩

/-- C4 (amended): if a source's chromosome lookup fails, the *current
SNP* is skipped as a whole with the non-fatal code 1 (the same code as a
statistical-filter rejection, so processing continues with the next SNP);
the sources after the failing one are not iterated for this SNP, and no
global/fatal failure (negative code) is raised.  The returned value does
not depend on the remaining sources at all. -/
theorem pileup_snp_missing_chrom_skips_snp (snp : csp_snp_t) (src : csp_bam_fs)
    (rest : List csp_bam_fs) (mplp : csp_mplp_t) (gs : global_settings)
    (h : src.name2id snp.chr < 0) :
    pileup_snp_with_fetch snp (src :: rest) mplp gs
      = some (1, { mplp with
          ref_idx := match snp.ref with
                     | some c => seq_nt16_char2int c
                     | none => -1,
          alt_idx := match snp.alt with
                     | some c => seq_nt16_char2int c
                     | none => -1 }) := by
  unfold pileup_snp_with_fetch
  dsimp only
  rw [snpSourceLoop, if_pos h]

/-- Witness for C4 (amended) at the concrete missing-chromosome source. -/
theorem pileup_snp_missing_chrom_skips_snp_witness :
    (srcMissing.name2id snpEx.chr < 0) ∧
    pileup_snp_with_fetch snpEx [srcMissing, srcGood] mplpEx1 gsEx
      = some (1, { mplpEx1 with ref_idx := 0, alt_idx := 2 }) :=
  ⟨by decide,
   (pileup_snp_missing_chrom_skips_snp snpEx srcMissing [srcGood] mplpEx1 gsEx
      (by decide)).trans (by decide)⟩

/-! ## C8: monotonicity of `minCOUNT` and `minMAF` -/

theorem pileup_read_thresholds (pos : Nat) (b : bam1_t) (gs : global_settings)
    (c : Nat) (f : ℚ) :
    pileup_read_with_fetch pos b { gs with min_count := c, min_maf := f }
      = pileup_read_with_fetch pos b gs := rfl

theorem csp_mplp_push_thresholds (p : csp_pileup_t) (m : csp_mplp_t) (sid : Int)
    (gs : global_settings) (c : Nat) (f : ℚ) :
    csp_mplp_push p m sid { gs with min_count := c, min_maf := f }
      = csp_mplp_push p m sid gs := rfl

theorem use_barcodes_thresholds (gs : global_settings) (c : Nat) (f : ℚ) :
    use_barcodes { gs with min_count := c, min_maf := f } = use_barcodes gs := rfl

theorem use_sid_thresholds (gs : global_settings) (c : Nat) (f : ℚ) :
    use_sid { gs with min_count := c, min_maf := f } = use_sid gs := rfl

theorem snpReadLoop_thresholds (pos : Nat) (gs : global_settings) (c : Nat)
    (f : ℚ) (i : Nat) :
    ∀ (bs : List bam1_t) (m : csp_mplp_t) (np : Nat),
      snpReadLoop pos { gs with min_count := c, min_maf := f } i bs m np
        = snpReadLoop pos gs i bs m np := by
  intro bs
  induction bs with
  | nil => intro m np; rfl
  | cons b tl ih =>
      intro m np
      simp only [snpReadLoop, pileup_read_thresholds, csp_mplp_push_thresholds]
      cases pileup_read_with_fetch pos b gs with
      | none => rfl
      | some r =>
          cases r with
          | badFormat => exact ih m np
          | filtered => exact ih m np
          | ok pu qpos laln =>
              dsimp only
              simp only [use_barcodes_thresholds, use_sid_thresholds]
              by_cases hb : use_barcodes gs = true
              · rw [if_pos hb, if_pos hb]
                split <;> [rfl; exact ih _ _]
              · rw [if_neg hb, if_neg hb]
                by_cases hs : use_sid gs = true
                · rw [if_pos hs, if_pos hs]
                  split <;> [rfl; exact ih _ _]
                · rw [if_neg hs, if_neg hs]

theorem snpSourceLoop_thresholds (snp : csp_snp_t) (gs : global_settings)
    (c : Nat) (f : ℚ) :
    ∀ (fs : List csp_bam_fs) (i : Nat) (m : csp_mplp_t) (np : Nat),
      snpSourceLoop snp { gs with min_count := c, min_maf := f } i fs m np
        = snpSourceLoop snp gs i fs m np := by
  intro fs
  induction fs with
  | nil => intro i m np; rfl
  | cons src tl ih =>
      intro i m np
      simp only [snpSourceLoop, snpReadLoop_thresholds]
      by_cases h : src.name2id snp.chr < 0
      · rw [if_pos h, if_pos h]
      · rw [if_neg h, if_neg h]
        cases snpReadLoop snp.pos gs i (src.fetch (src.name2id snp.chr) snp.pos) m np with
        | abort => rfl
        | err m' => rfl
        | filtered m' => rfl
        | done m' np' => exact ih _ _ _

theorem mafLt_mono (bc tc : Nat) {f f' : ℚ} (hf : f ≤ f') :
    mafLt bc tc f → mafLt bc tc f' := by
  rw [mafLt_iff, mafLt_iff]
  intro h
  exact lt_of_lt_of_le h (mul_le_mul_of_nonneg_left hf (by positivity))

theorem csp_mplp_stat_code_mono (m : csp_mplp_t) (gs : global_settings)
    (c c' : Nat) (f f' : ℚ) (hc : c ≤ c') (hf : f ≤ f')
    (h : (csp_mplp_stat m { gs with min_count := c', min_maf := f' }).1 = 0) :
    (csp_mplp_stat m { gs with min_count := c, min_maf := f }).1 = 0 := by
  unfold csp_mplp_stat at h ⊢
  dsimp only at h ⊢
  by_cases h1 : (csp_mplp_sum m).tc < c'
  · rw [if_pos h1] at h
    simp at h
  · rw [if_neg h1] at h
    rw [if_neg (show ¬ (csp_mplp_sum m).tc < c by omega)]
    by_cases h2 : mafLt ((csp_mplp_infer (csp_mplp_sum m)).bc.getD
        (csp_mplp_infer (csp_mplp_sum m)).inf_aid.toNat 0)
        (csp_mplp_infer (csp_mplp_sum m)).tc f'
    · rw [if_pos h2] at h
      simp at h
    · rw [if_neg h2] at h
      rw [if_neg (fun hl => h2 (mafLt_mono _ _ hf hl))]

/-- C8: for any fixed input (read sources, prepared state, all other
configuration fields held constant), raising `minCOUNT` or `minMAF` never
lets more SNPs through: a SNP passing with the larger thresholds passes
with the smaller ones, the passing sublist for the larger thresholds is
contained in the one for the smaller, and its length is never larger. -/
theorem filters_monotone (fs : List csp_bam_fs) (mplp : csp_mplp_t)
    (gs : global_settings) (c c' : Nat) (f f' : ℚ) (hc : c ≤ c') (hf : f ≤ f') :
    (∀ snp : csp_snp_t,
        sitePasses fs mplp { gs with min_count := c', min_maf := f' } snp = true →
        sitePasses fs mplp { gs with min_count := c, min_maf := f } snp = true) ∧
    (∀ snps : List csp_snp_t,
      (snps.filter (sitePasses fs mplp { gs with min_count := c', min_maf := f' })).length
        ≤ (snps.filter (sitePasses fs mplp { gs with min_count := c, min_maf := f })).length ∧
      ∀ snp ∈ snps.filter (sitePasses fs mplp { gs with min_count := c', min_maf := f' }),
        snp ∈ snps.filter (sitePasses fs mplp { gs with min_count := c, min_maf := f })) := by
  have hpoint : ∀ snp : csp_snp_t,
      sitePasses fs mplp { gs with min_count := c', min_maf := f' } snp = true →
      sitePasses fs mplp { gs with min_count := c, min_maf := f } snp = true := by
    intro snp hpass
    unfold sitePasses pileup_snp_with_fetch at hpass ⊢
    dsimp only at hpass ⊢
    rw [snpSourceLoop_thresholds] at hpass ⊢
    cases hloop : snpSourceLoop snp gs 0 fs
        { mplp with
            ref_idx := match snp.ref with
                       | some ch => seq_nt16_char2int ch
                       | none => -1,
            alt_idx := match snp.alt with
                       | some ch => seq_nt16_char2int ch
                       | none => -1 } 0 with
    | abort => rw [hloop] at hpass; simp at hpass
    | err m' => rw [hloop] at hpass; simp at hpass
    | filtered m' => rw [hloop] at hpass; simp at hpass
    | done m' np =>
        rw [hloop] at hpass
        dsimp only at hpass ⊢
        by_cases hnp : np < c'
        · rw [if_pos hnp] at hpass
          simp at hpass
        · rw [if_neg hnp] at hpass
          rw [if_neg (show ¬ np < c by omega)]
          by_cases hstat : (csp_mplp_stat m' { gs with min_count := c', min_maf := f' }).1 = 0
          · have hstat2 := csp_mplp_stat_code_mono m' gs c c' f f' hc hf hstat
            rw [if_pos hstat2]
            simp
          · rw [if_neg hstat] at hpass
            dsimp only at hpass
            split at hpass <;> simp at hpass
  refine ⟨hpoint, ?_⟩
  intro snps
  constructor
  · induction snps with
    | nil => simp
    | cons s tl ih =>
        by_cases hp' : sitePasses fs mplp { gs with min_count := c', min_maf := f' } s = true
        · rw [List.filter_cons_of_pos hp',
              List.filter_cons_of_pos (hpoint s hp')]
          simpa using ih
        · rw [List.filter_cons_of_neg (by simpa using hp')]
          by_cases hp : sitePasses fs mplp { gs with min_count := c, min_maf := f } s = true
          · rw [List.filter_cons_of_pos hp]
            simp only [List.length_cons]
            omega
          · rw [List.filter_cons_of_neg (by simpa using hp)]
            exact ih
  · intro snp hmem
    rw [List.mem_filter] at hmem ⊢
    exact ⟨hmem.1, hpoint snp hmem.2⟩

/-- Witness for C8: one SNP with one single-read source; at `minCOUNT 2`
nothing passes (length 0), at `minCOUNT 1` the SNP passes (length 1), and
the theorem's inequality holds between them. -/
theorem filters_monotone_witness :
    ((1 : Nat) ≤ 2) ∧
    (([snpEx].filter (sitePasses [srcGood] mplpEx1
        { gsEx with min_count := 2, min_maf := gsEx.min_maf })).length
      ≤ ([snpEx].filter (sitePasses [srcGood] mplpEx1
        { gsEx with min_count := 1, min_maf := gsEx.min_maf })).length) ∧
    ([snpEx].filter (sitePasses [srcGood] mplpEx1
        { gsEx with min_count := 2, min_maf := gsEx.min_maf })).length = 0 ∧
    ([snpEx].filter (sitePasses [srcGood] mplpEx1
        { gsEx with min_count := 1, min_maf := gsEx.min_maf })).length = 1 :=
  ⟨by decide,
   ((filters_monotone [srcGood] mplpEx1 gsEx 1 2 gsEx.min_maf gsEx.min_maf
      (by decide) (le_refl _)).2 [snpEx]).1,
   by decide, by decide⟩

/-! ## C1 and C9: merge, renumbering and the two coordinator paths -/

theorem natChars_head (n : Nat) :
    ∃ d t, natChars n = Nat.digitChar d :: t ∧ d < 10 := by
  induction n using Nat.strong_induction_on with
  | _ n ih =>
    rw [natChars]
    split_ifs with h
    · exact ⟨n, [], rfl, h⟩
    · obtain ⟨d, t, hd, hlt⟩ := ih (n / 10) (Nat.div_lt_self (by omega) (by omega))
      refine ⟨d, t ++ [Nat.digitChar (n % 10)], ?_, hlt⟩
      rw [hd]
      rfl

/-- A line that starts with a printed decimal number is not a comment
line. -/
theorem lineIsComment_digit (n : Nat) (l : List Char) :
    lineIsComment (natChars n ++ l) = false := by
  obtain ⟨d, t, hd, hlt⟩ := natChars_head n
  rw [hd]
  show (Nat.digitChar d == '%') = false
  interval_cases d <;> decide

theorem tmpMtxLine_ne_nil (r : Nat × Nat) : tmpMtxLine r ≠ [] := by
  unfold tmpMtxLine
  obtain ⟨d, t, hd, _⟩ := natChars_head r.1
  rw [hd]
  simp

/-- Merging a block of record lines prefixes the current site ordinal to
each of them and counts them. -/
theorem mergeLines_records (recs : List (Nat × Nat)) :
    ∀ (k m : Nat) (tail : List (List Char)),
      mergeLines (recs.map tmpMtxLine ++ tail) k m
        = ((mergeLines tail k (m + recs.length)).1,
           (mergeLines tail k (m + recs.length)).2.1,
           recs.map (mtxLine k) ++ (mergeLines tail k (m + recs.length)).2.2) := by
  induction recs with
  | nil => intro k m tail; simp
  | cons r rs ih =>
      intro k m tail
      simp only [List.map_cons, List.cons_append, mergeLines, List.append_eq]
      rw [if_neg (tmpMtxLine_ne_nil r), ih k (m + 1) tail]
      have harith : m + 1 + rs.length = m + (rs.length + 1) := by omega
      simp only [List.length_cons, harith]
      rfl

theorem sitesMtxLines_true_start (f : csp_plp_t → Nat) :
    ∀ (sites : List (csp_snp_t × csp_mplp_t)) (s s' : Nat),
      sitesMtxLines true f s sites = sitesMtxLines true f s' sites := by
  intro sites
  induction sites with
  | nil => intro s s'; rfl
  | cons x rest ih =>
      intro s s'
      simp only [sitesMtxLines, csp_mplp_to_mtx_lines, if_true]
      rw [ih (s + 1) (s' + 1)]

theorem sitesMtxLines_append (isTmp : Bool) (f : csp_plp_t → Nat) :
    ∀ (a b : List (csp_snp_t × csp_mplp_t)) (n : Nat),
      sitesMtxLines isTmp f n (a ++ b)
        = sitesMtxLines isTmp f n a ++ sitesMtxLines isTmp f (n + a.length) b := by
  intro a
  induction a with
  | nil => intro b n; simp [sitesMtxLines]
  | cons x rest ih =>
      intro b n
      simp only [List.cons_append, sitesMtxLines, List.append_eq, List.length_cons]
      rw [ih b (n + 1)]
      have h2 : n + 1 + rest.length = n + (rest.length + 1) := by omega
      rw [h2, List.append_assoc]

theorem recCount_cons (f : csp_plp_t → Nat) (s : csp_snp_t × csp_mplp_t)
    (rest : List (csp_snp_t × csp_mplp_t)) :
    recCount f (s :: rest) = (mtxRecords f s.2).length + recCount f rest := by
  simp [recCount]

/-- Merging the temporary-fragment lines of a run of passing sites
starting at global ordinal `n + 1`: the site counter advances by the
number of sites, the record counter by the number of records, and the
output is exactly the direct-mode lines with global ordinals. -/
theorem mergeLines_sites (f : csp_plp_t → Nat) :
    ∀ (sites : List (csp_snp_t × csp_mplp_t)) (n m : Nat),
      mergeLines (sitesMtxLines true f 0 sites) (n + 1) m
        = (n + sites.length + 1, m + recCount f sites, sitesMtxLines false f n sites) := by
  intro sites
  induction sites with
  | nil => intro n m; simp [sitesMtxLines, mergeLines, recCount]
  | cons s rest ih =>
      intro n m
      have hhead : sitesMtxLines true f 0 (s :: rest)
          = (mtxRecords f s.2).map tmpMtxLine ++
              ([] :: sitesMtxLines true f 0 rest) := by
        simp only [sitesMtxLines, csp_mplp_to_mtx_lines, if_true]
        rw [sitesMtxLines_true_start f rest 1 0]
        simp
      rw [hhead, mergeLines_records]
      have hblank : ∀ m' : Nat, mergeLines ([] :: sitesMtxLines true f 0 rest) (n + 1) m'
          = mergeLines (sitesMtxLines true f 0 rest) (n + 1 + 1) m' := by
        intro m'
        simp [mergeLines]
      rw [hblank, ih (n + 1) (m + (mtxRecords f s.2).length)]
      simp only [recCount_cons, List.length_cons]
      refine Prod.ext ?_ (Prod.ext ?_ ?_)
      · simp; omega
      · simp; omega
      · show (mtxRecords f s.2).map (mtxLine (n + 1)) ++ sitesMtxLines false f (n + 1) rest
            = sitesMtxLines false f n (s :: rest)
        simp [sitesMtxLines, csp_mplp_to_mtx_lines]

theorem sitesMtxLines_flatten (f : csp_plp_t → Nat)
    (shards : List (List (csp_snp_t × csp_mplp_t))) :
    (shards.map (fun sites => sitesMtxLines true f 0 sites)).flatten
      = sitesMtxLines true f 0 shards.flatten := by
  induction shards with
  | nil => rfl
  | cons a tl ih =>
      simp only [List.map_cons, List.flatten_cons, ih]
      rw [sitesMtxLines_append true f a tl.flatten 0,
          sitesMtxLines_true_start f tl.flatten 0 (0 + a.length)]

theorem recCount_append (f : csp_plp_t → Nat)
    (u v : List (csp_snp_t × csp_mplp_t)) :
    recCount f (u ++ v) = recCount f u + recCount f v := by
  simp [recCount]

theorem recCount_flatten (f : csp_plp_t → Nat)
    (shards : List (List (csp_snp_t × csp_mplp_t))) :
    recCount f shards.flatten = (shards.map (recCount f)).sum := by
  induction shards with
  | nil => rfl
  | cons a tl ih =>
      rw [List.flatten_cons, recCount_append, ih, List.map_cons, List.sum_cons]

/-- `merge_mtx` over per-shard fragments: the merge-computed site and
record counts are exactly the sums of the per-shard counts, and the
merged body is the direct-mode body of the concatenated site runs. -/
theorem merge_mtx_frags (f : csp_plp_t → Nat)
    (shards : List (List (csp_snp_t × csp_mplp_t))) :
    merge_mtx (shards.map (fun sites => sitesMtxLines true f 0 sites))
      = ((shards.map List.length).sum, (shards.map (recCount f)).sum,
         sitesMtxLines false f 0 shards.flatten) := by
  unfold merge_mtx
  rw [sitesMtxLines_flatten f shards]
  have h0 : (1 : Nat) = 0 + 1 := rfl
  rw [h0, mergeLines_sites f shards.flatten 0 0]
  have hlen : shards.flatten.length = (shards.map List.length).sum := by
    simp [List.length_flatten]
  dsimp only
  rw [hlen, recCount_flatten]
  simp

theorem csp_mplp_push_nr (p : csp_pileup_t) (m : csp_mplp_t) (sid : Int)
    (gs : global_settings) :
    (csp_mplp_push p m sid gs).2.nr_ad = m.nr_ad ∧
    (csp_mplp_push p m sid gs).2.nr_dp = m.nr_dp ∧
    (csp_mplp_push p m sid gs).2.nr_oth = m.nr_oth := by
  unfold csp_mplp_push
  by_cases hb : use_barcodes gs = true
  · rw [if_pos hb]
    cases lookupGroup m.groups p.cb <;> exact ⟨rfl, rfl, rfl⟩
  · rw [if_neg hb]
    by_cases hs : use_sid gs = true
    · rw [if_pos hs]
      cases h : m.groups.get? sid.toNat with
      | none => exact ⟨rfl, rfl, rfl⟩
      | some kv => cases kv; exact ⟨rfl, rfl, rfl⟩
    · rw [if_neg hs]
      exact ⟨rfl, rfl, rfl⟩

theorem snpReadLoop_nr (pos : Nat) (gs : global_settings) (i : Nat) :
    ∀ (bs : List bam1_t) (m : csp_mplp_t) (np : Nat) (m' : csp_mplp_t) (np' : Nat),
      snpReadLoop pos gs i bs m np = .done m' np' →
      m'.nr_ad = m.nr_ad ∧ m'.nr_dp = m.nr_dp ∧ m'.nr_oth = m.nr_oth := by
  intro bs
  induction bs with
  | nil =>
      intro m np m' np' h
      cases h
      exact ⟨rfl, rfl, rfl⟩
  | cons b tl ih =>
      intro m np m' np' h
      unfold snpReadLoop at h
      cases hpr : pileup_read_with_fetch pos b gs with
      | none => rw [hpr] at h; cases h
      | some r =>
          rw [hpr] at h
          cases r with
          | badFormat => exact ih _ _ _ _ h
          | filtered => exact ih _ _ _ _ h
          | ok pu qpos laln =>
              dsimp only at h
              by_cases hb : use_barcodes gs = true
              · rw [if_pos hb] at h
                by_cases hneg : (csp_mplp_push pu m (-1) gs).1 < 0
                · rw [if_pos hneg] at h; cases h
                · rw [if_neg hneg] at h
                  have h1 := ih _ _ _ _ h
                  have h2 := csp_mplp_push_nr pu m (-1) gs
                  exact ⟨h1.1.trans h2.1, h1.2.1.trans h2.2.1, h1.2.2.trans h2.2.2⟩
              · rw [if_neg hb] at h
                by_cases hs : use_sid gs = true
                · rw [if_pos hs] at h
                  by_cases hneg : (csp_mplp_push pu m (i : Int) gs).1 < 0
                  · rw [if_pos hneg] at h; cases h
                  · rw [if_neg hneg] at h
                    have h1 := ih _ _ _ _ h
                    have h2 := csp_mplp_push_nr pu m (i : Int) gs
                    exact ⟨h1.1.trans h2.1, h1.2.1.trans h2.2.1, h1.2.2.trans h2.2.2⟩
                · rw [if_neg hs] at h
                  cases h

theorem snpSourceLoop_nr (snp : csp_snp_t) (gs : global_settings) :
    ∀ (fs : List csp_bam_fs) (i : Nat) (m : csp_mplp_t) (np : Nat)
      (m' : csp_mplp_t) (np' : Nat),
      snpSourceLoop snp gs i fs m np = .done m' np' →
      m'.nr_ad = m.nr_ad ∧ m'.nr_dp = m.nr_dp ∧ m'.nr_oth = m.nr_oth := by
  intro fs
  induction fs with
  | nil =>
      intro i m np m' np' h
      cases h
      exact ⟨rfl, rfl, rfl⟩
  | cons src tl ih =>
      intro i m np m' np' h
      unfold snpSourceLoop at h
      by_cases htid : src.name2id snp.chr < 0
      · rw [if_pos htid] at h; cases h
      · rw [if_neg htid] at h
        cases hrl : snpReadLoop snp.pos gs i (src.fetch (src.name2id snp.chr) snp.pos) m np with
        | abort => rw [hrl] at h; cases h
        | err m2 => rw [hrl] at h; cases h
        | filtered m2 => rw [hrl] at h; cases h
        | done m2 np2 =>
            rw [hrl] at h
            have h1 := ih _ _ _ _ _ h
            have h2 := snpReadLoop_nr snp.pos gs i _ m np m2 np2 hrl
            exact ⟨h1.1.trans h2.1, h1.2.1.trans h2.2.1, h1.2.2.trans h2.2.2⟩

/-- When `csp_mplp_stat` succeeds, its result state is the composition
of the summing, inference, install and output steps. -/
theorem csp_mplp_stat_zero (m : csp_mplp_t) (gs : global_settings)
    (h : (csp_mplp_stat m gs).1 = 0) :
    (csp_mplp_stat m gs).2
      = csp_mplp_outputs gs (csp_mplp_install (csp_mplp_infer (csp_mplp_sum m))) := by
  unfold csp_mplp_stat at h ⊢
  dsimp only at h ⊢
  split_ifs at h ⊢
  · simp at h
  · simp at h
  · rfl

theorem enumFrom_filterMap_length (f : csp_plp_t → Nat)
    (l : List (String × csp_plp_t)) :
    ∀ n : Nat,
      ((List.enumFrom n l).filterMap
        (fun p => if f p.2.2 = 0 then none else some (p.1 + 1, f p.2.2))).length
        = (l.filter (fun p => f p.2 ≠ 0)).length := by
  induction l with
  | nil => intro n; rfl
  | cons x xs ih =>
      intro n
      simp only [List.enumFrom, List.filterMap_cons, List.filter_cons]
      by_cases hx : f x.2 = 0
      · rw [if_pos hx, if_neg (show ¬ ((fun p => decide (f p.2 ≠ 0)) x = true) by simp [hx])]
        exact ih (n + 1)
      · rw [if_neg hx, if_pos (show (fun p => decide (f p.2 ≠ 0)) x = true by simp [hx])]
        simp only [List.length_cons]
        rw [ih (n + 1)]

theorem mtxRecords_length (f : csp_plp_t → Nat) (m : csp_mplp_t) :
    (mtxRecords f m).length = (m.groups.filter (fun p => f p.2 ≠ 0)).length := by
  unfold mtxRecords
  exact enumFrom_filterMap_length f m.groups 0

theorem csp_mplp_outputs_nr (gs : global_settings) (m3 : csp_mplp_t) :
    (csp_mplp_outputs gs m3).nr_ad
        = m3.nr_ad + (mtxRecords (fun p => p.ad) (csp_mplp_outputs gs m3)).length ∧
    (csp_mplp_outputs gs m3).nr_dp
        = m3.nr_dp + (mtxRecords (fun p => p.dp) (csp_mplp_outputs gs m3)).length ∧
    (csp_mplp_outputs gs m3).nr_oth
        = m3.nr_oth + (mtxRecords (fun p => p.oth) (csp_mplp_outputs gs m3)).length := by
  refine ⟨?_, ?_, ?_⟩ <;> rw [mtxRecords_length] <;> rfl

theorem csp_mplp_install_nr (m : csp_mplp_t) :
    (csp_mplp_install m).nr_ad = m.nr_ad ∧
    (csp_mplp_install m).nr_dp = m.nr_dp ∧
    (csp_mplp_install m).nr_oth = m.nr_oth := by
  unfold csp_mplp_install
  split <;> exact ⟨rfl, rfl, rfl⟩

/-- Every passing site's record counters are exactly the numbers of
nonzero records its matrix lines carry, provided the prepared template's
counters start at zero (as `csp_mplp_prepare`/`csp_mplp_reset`
guarantee). -/
theorem passOut_nr (fs : List csp_bam_fs) (gs : global_settings)
    (mplpP : csp_mplp_t) (snp : csp_snp_t) (sm : csp_snp_t × csp_mplp_t)
    (hz : mplpP.nr_ad = 0 ∧ mplpP.nr_dp = 0 ∧ mplpP.nr_oth = 0)
    (h : passOut fs gs mplpP snp = some sm) :
    sm.2.nr_ad = (mtxRecords (fun p => p.ad) sm.2).length ∧
    sm.2.nr_dp = (mtxRecords (fun p => p.dp) sm.2).length ∧
    sm.2.nr_oth = (mtxRecords (fun p => p.oth) sm.2).length := by
  unfold passOut pileup_snp_with_fetch at h
  dsimp only at h
  cases hloop : snpSourceLoop snp gs 0 fs
      { mplpP with
          ref_idx := match snp.ref with
                     | some ch => seq_nt16_char2int ch
                     | none => -1,
          alt_idx := match snp.alt with
                     | some ch => seq_nt16_char2int ch
                     | none => -1 } 0 with
  | abort => rw [hloop] at h; cases h
  | err m2 => rw [hloop] at h; simp at h
  | filtered m2 => rw [hloop] at h; simp at h
  | done m2 np =>
      rw [hloop] at h
      dsimp only at h
      by_cases hnp : np < gs.min_count
      · rw [if_pos hnp] at h; simp at h
      · rw [if_neg hnp] at h
        by_cases hstat : (csp_mplp_stat m2 gs).1 = 0
        · rw [if_pos hstat] at h
          dsimp only at h
          have h0 : ((0 : Int) = 0) := rfl
          rw [if_pos h0] at h
          injection h with h2
          subst h2
          have hshape := csp_mplp_stat_zero m2 gs hstat
          dsimp only
          rw [hshape]
          have hm2nr := snpSourceLoop_nr snp gs fs 0 _ 0 m2 np hloop
          have hinst := csp_mplp_install_nr (csp_mplp_infer (csp_mplp_sum m2))
          have hout := csp_mplp_outputs_nr gs (csp_mplp_install (csp_mplp_infer (csp_mplp_sum m2)))
          have hsum_nr : (csp_mplp_sum m2).nr_ad = m2.nr_ad ∧
              (csp_mplp_sum m2).nr_dp = m2.nr_dp ∧
              (csp_mplp_sum m2).nr_oth = m2.nr_oth := ⟨rfl, rfl, rfl⟩
          have hinf_nr : (csp_mplp_infer (csp_mplp_sum m2)).nr_ad = (csp_mplp_sum m2).nr_ad ∧
              (csp_mplp_infer (csp_mplp_sum m2)).nr_dp = (csp_mplp_sum m2).nr_dp ∧
              (csp_mplp_infer (csp_mplp_sum m2)).nr_oth = (csp_mplp_sum m2).nr_oth :=
            ⟨rfl, rfl, rfl⟩
          refine ⟨?_, ?_, ?_⟩
          · rw [hout.1, hinst.1, hinf_nr.1, hsum_nr.1, hm2nr.1]
            simp [hz.1]
          · rw [hout.2.1, hinst.2.1, hinf_nr.2.1, hsum_nr.2.1, hm2nr.2.1]
            simp [hz.2.1]
          · rw [hout.2.2, hinst.2.2, hinf_nr.2.2, hsum_nr.2.2, hm2nr.2.2]
            simp [hz.2.2]
        · rw [if_neg hstat] at h
          dsimp only at h
          split at h <;> simp at h

theorem driverExtend_nil (gs : global_settings) (isTmp : Bool) (d : thread_data) :
    driverExtend gs isTmp d [] = d := by
  cases d
  simp [driverExtend, sitesMtxLines]

theorem driverExtend_cons (gs : global_settings) (isTmp : Bool) (d : thread_data)
    (snp : csp_snp_t) (m : csp_mplp_t) (sites : List (csp_snp_t × csp_mplp_t)) :
    driverExtend gs isTmp d ((snp, m) :: sites)
      = driverExtend gs isTmp
          { ns := d.ns + 1,
            nr_ad := d.nr_ad + m.nr_ad,
            nr_dp := d.nr_dp + m.nr_dp,
            nr_oth := d.nr_oth + m.nr_oth,
            mtx_ad := d.mtx_ad ++
              csp_mplp_to_mtx_lines isTmp (d.ns + 1) (mtxRecords (fun p => p.ad) m),
            mtx_dp := d.mtx_dp ++
              csp_mplp_to_mtx_lines isTmp (d.ns + 1) (mtxRecords (fun p => p.dp) m),
            mtx_oth := d.mtx_oth ++
              csp_mplp_to_mtx_lines isTmp (d.ns + 1) (mtxRecords (fun p => p.oth) m),
            vcf_base := d.vcf_base ++ [vcf_base_line snp m],
            vcf_cells := d.vcf_cells ++
              (if gs.is_genotype then [vcf_cells_line snp m] else []) }
          sites := by
  simp only [driverExtend, sitesMtxLines, thread_data.mk.injEq, List.map_cons,
    List.sum_cons, List.length_cons, List.append_assoc]
  repeat' apply And.intro
  all_goals first
    | trivial
    | omega
    | (by_cases hg : gs.is_genotype = true <;> simp [hg])

/-- The driver loop (`pileup_positions_with_fetch`), characterized: when
no site hard-fails, it succeeds and accumulates exactly the per-site
matrix records (with worker-local 1-based ordinals in order), record
counters and VCF lines of the passing sites. -/
theorem pileup_positions_loop_spec (fs : List csp_bam_fs) (gs : global_settings)
    (mplpP : csp_mplp_t) (isTmp : Bool) :
    ∀ (snps : List csp_snp_t) (d : thread_data),
      (∀ snp ∈ snps, siteNonFatal fs gs mplpP snp = true) →
      pileup_positions_loop fs gs mplpP isTmp snps d
        = some (driverExtend gs isTmp d (passSites fs gs mplpP snps)) := by
  intro snps
  induction snps with
  | nil =>
      intro d _
      simp [pileup_positions_loop, passSites, driverExtend_nil]
  | cons snp rest ih =>
      intro d hok
      have hnf := hok snp (by simp)
      unfold pileup_positions_loop
      cases hres : pileup_snp_with_fetch snp fs mplpP gs with
      | none =>
          unfold siteNonFatal at hnf
          rw [hres] at hnf
          cases hnf
      | some r =>
          rcases r with ⟨code, m⟩
          dsimp only
          have hcode : (0 : Int) ≤ code := by
            unfold siteNonFatal at hnf
            rw [hres] at hnf
            simpa using hnf
          rw [if_neg (by omega)]
          have hrest : ∀ s ∈ rest, siteNonFatal fs gs mplpP s = true :=
            fun s hs => hok s (by simp [hs])
          by_cases h0 : code = 0
          · rw [if_pos h0, ih _ hrest]
            have hpass : passSites fs gs mplpP (snp :: rest)
                = (snp, m) :: passSites fs gs mplpP rest := by
              unfold passSites
              rw [List.filterMap_cons]
              have : passOut fs gs mplpP snp = some (snp, m) := by
                unfold passOut
                rw [hres]
                dsimp only
                rw [if_pos h0]
              rw [this]
            rw [hpass, driverExtend_cons]
          · rw [if_neg h0, ih _ hrest]
            have hpass : passSites fs gs mplpP (snp :: rest)
                = passSites fs gs mplpP rest := by
              unfold passSites
              rw [List.filterMap_cons]
              have : passOut fs gs mplpP snp = none := by
                unfold passOut
                rw [hres]
                dsimp only
                rw [if_neg h0]
              rw [this]
            rw [hpass]

/-- Running one driver per shard (the `pthread_create`/`pthread_join`
block, executed in shard order): when no site hard-fails, every worker
succeeds and returns its `driverExtend` accumulation. -/
theorem shard_mapM (fs : List csp_bam_fs) (gs : global_settings) (mplpP : csp_mplp_t) :
    ∀ shardLists : List (List csp_snp_t),
      (∀ sh ∈ shardLists, ∀ snp ∈ sh, siteNonFatal fs gs mplpP snp = true) →
      shardLists.mapM (fun sh => pileup_positions_loop fs gs mplpP true sh thdata_init)
        = some (shardLists.map
            (fun sh => driverExtend gs true thdata_init (passSites fs gs mplpP sh))) := by
  intro shardLists
  induction shardLists with
  | nil => intro _; rfl
  | cons sh rest ih =>
      intro hok
      have h1 := pileup_positions_loop_spec fs gs mplpP true sh thdata_init
        (fun snp hs => hok sh (by simp) snp hs)
      have h2 := ih (fun s hs snp hsnp => hok s (by simp [hs]) snp hsnp)
      rw [List.mapM_cons, h1, h2]
      rfl

/-- The fields a worker starting from `thdata_init` ends with, for a run
of passing sites. -/
theorem driverExtend_init_fields (gs : global_settings) (isTmp : Bool)
    (sites : List (csp_snp_t × csp_mplp_t)) :
    (driverExtend gs isTmp thdata_init sites).ns = sites.length ∧
    (driverExtend gs isTmp thdata_init sites).nr_ad
      = (sites.map (fun s => s.2.nr_ad)).sum ∧
    (driverExtend gs isTmp thdata_init sites).nr_dp
      = (sites.map (fun s => s.2.nr_dp)).sum ∧
    (driverExtend gs isTmp thdata_init sites).nr_oth
      = (sites.map (fun s => s.2.nr_oth)).sum ∧
    (driverExtend gs isTmp thdata_init sites).mtx_ad
      = sitesMtxLines isTmp (fun p => p.ad) 0 sites ∧
    (driverExtend gs isTmp thdata_init sites).mtx_dp
      = sitesMtxLines isTmp (fun p => p.dp) 0 sites ∧
    (driverExtend gs isTmp thdata_init sites).mtx_oth
      = sitesMtxLines isTmp (fun p => p.oth) 0 sites ∧
    (driverExtend gs isTmp thdata_init sites).vcf_base
      = sites.map (fun s => vcf_base_line s.1 s.2) ∧
    (driverExtend gs isTmp thdata_init sites).vcf_cells
      = (if gs.is_genotype then sites.map (fun s => vcf_cells_line s.1 s.2) else []) := by
  simp [driverExtend, thdata_init]

/-- For sites produced by `passOut` of a zero-counter template, the
summed per-site record counters are the record counts of each matrix
field. -/
theorem passSites_nr_sum (fs : List csp_bam_fs) (gs : global_settings)
    (mplpP : csp_mplp_t) (snps : List csp_snp_t)
    (hz : mplpP.nr_ad = 0 ∧ mplpP.nr_dp = 0 ∧ mplpP.nr_oth = 0) :
    ((passSites fs gs mplpP snps).map (fun s => s.2.nr_ad)).sum
      = recCount (fun p => p.ad) (passSites fs gs mplpP snps) ∧
    ((passSites fs gs mplpP snps).map (fun s => s.2.nr_dp)).sum
      = recCount (fun p => p.dp) (passSites fs gs mplpP snps) ∧
    ((passSites fs gs mplpP snps).map (fun s => s.2.nr_oth)).sum
      = recCount (fun p => p.oth) (passSites fs gs mplpP snps) := by
  have key : ∀ s ∈ passSites fs gs mplpP snps,
      s.2.nr_ad = (mtxRecords (fun p => p.ad) s.2).length ∧
      s.2.nr_dp = (mtxRecords (fun p => p.dp) s.2).length ∧
      s.2.nr_oth = (mtxRecords (fun p => p.oth) s.2).length := by
    intro s hs
    unfold passSites at hs
    obtain ⟨snp, _, hp⟩ := List.mem_filterMap.mp hs
    exact passOut_nr fs gs mplpP snp s hz hp
  refine ⟨?_, ?_, ?_⟩
  · unfold recCount
    exact congrArg List.sum (List.map_congr_left (fun s hs => (key s hs).1))
  · unfold recCount
    exact congrArg List.sum (List.map_congr_left (fun s hs => (key s hs).2.1))
  · unfold recCount
    exact congrArg List.sum (List.map_congr_left (fun s hs => (key s hs).2.2))

theorem passSites_append (fs : List csp_bam_fs) (gs : global_settings)
    (mplpP : csp_mplp_t) (u v : List csp_snp_t) :
    passSites fs gs mplpP (u ++ v)
      = passSites fs gs mplpP u ++ passSites fs gs mplpP v := by
  simp [passSites, List.filterMap_append]

theorem passSites_flatten (fs : List csp_bam_fs) (gs : global_settings)
    (mplpP : csp_mplp_t) (Ls : List (List csp_snp_t)) :
    passSites fs gs mplpP Ls.flatten
      = (Ls.map (passSites fs gs mplpP)).flatten := by
  induction Ls with
  | nil => rfl
  | cons a tl ih =>
      rw [List.flatten_cons, passSites_append, ih, List.map_cons, List.flatten_cons]

theorem csp_mplp_to_mtx_lines_false (idx : Nat) (recs : List (Nat × Nat)) :
    csp_mplp_to_mtx_lines false idx recs = recs.map (mtxLine idx) := rfl

/-- A final-shape record line starts with a digit and is not blank. -/
theorem mtxLine_not_comment (idx : Nat) (r : Nat × Nat) :
    lineIsComment (mtxLine idx r) = false ∧ mtxLine idx r ≠ [] := by
  constructor
  · exact lineIsComment_digit idx _
  · unfold mtxLine
    obtain ⟨d, t, hd, _⟩ := natChars_head idx
    rw [hd]
    simp

/-- Every line of a direct-mode matrix body is a record line: not a
comment and not blank. -/
theorem sitesMtxLines_false_mem (f : csp_plp_t → Nat) :
    ∀ (sites : List (csp_snp_t × csp_mplp_t)) (n : Nat) (l : List Char),
      l ∈ sitesMtxLines false f n sites → lineIsComment l = false ∧ l ≠ [] := by
  intro sites
  induction sites with
  | nil => intro n l h; simp [sitesMtxLines] at h
  | cons s rest ih =>
      intro n l h
      simp only [sitesMtxLines, csp_mplp_to_mtx_lines_false, List.mem_append,
        List.mem_map] at h
      rcases h with ⟨r, _, hr⟩ | h
      · rw [← hr]
        exact mtxLine_not_comment (n + 1) r
      · exact ih (n + 1) l h

/-- An empty direct-mode matrix body means zero records. -/
theorem sitesMtxLines_false_nil (f : csp_plp_t → Nat) :
    ∀ (sites : List (csp_snp_t × csp_mplp_t)) (n : Nat),
      sitesMtxLines false f n sites = [] → recCount f sites = 0 := by
  intro sites
  induction sites with
  | nil => intro n _; rfl
  | cons s rest ih =>
      intro n h
      simp only [sitesMtxLines, csp_mplp_to_mtx_lines_false, List.append_eq_nil] at h
      rw [recCount_cons, List.map_eq_nil_iff.mp h.1, ih (n + 1) h.2]
      rfl

/-- `rewrite_mtx`'s comment scan splits a matrix file into the
`CSP_MTX_HEADER` block and the record body. -/
theorem header_split (body : List (List Char))
    (hb : ∀ l ∈ body, lineIsComment l = false) :
    (mtxHeaderChars ++ body).takeWhile lineIsComment = mtxHeaderChars ∧
    (mtxHeaderChars ++ body).dropWhile lineIsComment = body := by
  cases body with
  | nil => exact ⟨by decide, by decide⟩
  | cons l ls =>
      have h1 : ¬ (lineIsComment l = true) := by simp [hb l (by simp)]
      have hA : lineIsComment
          ("%%MatrixMarket matrix coordinate integer general".data) = true := by decide
      have hB : lineIsComment ("%".data) = true := by decide
      constructor
      · show List.takeWhile lineIsComment
            ("%%MatrixMarket matrix coordinate integer general".data
              :: "%".data :: l :: ls) = mtxHeaderChars
        rw [List.takeWhile_cons_of_pos hA, List.takeWhile_cons_of_pos hB,
          List.takeWhile_cons_of_neg h1]
        rfl
      · show List.dropWhile lineIsComment
            ("%%MatrixMarket matrix coordinate integer general".data
              :: "%".data :: l :: ls) = l :: ls
        rw [List.dropWhile_cons_of_pos hA, List.dropWhile_cons_of_pos hB,
          List.dropWhile_cons_of_neg h1]

/-- `rewrite_mtx` on a header plus a record body: the stat line is
inserted between them (the blank/short-file error paths are not hit,
since a record body is blank-free and an empty body forces `nr = 0`). -/
theorem rewrite_mtx_spec (body : List (List Char)) (ns nsmp nr : Nat)
    (hb : ∀ l ∈ body, lineIsComment l = false ∧ l ≠ [])
    (hnr : body = [] → nr = 0) :
    rewrite_mtx (mtxHeaderChars ++ body) ns nsmp nr
      = some (mtxHeaderChars ++ statLine ns nsmp nr :: body) := by
  obtain ⟨htake, hdrop⟩ := header_split body (fun l hl => (hb l hl).1)
  unfold rewrite_mtx
  rw [htake, hdrop]
  cases body with
  | nil =>
      have h0 : nr = 0 := hnr rfl
      subst h0
      dsimp only
      rw [if_neg (by simp)]
  | cons l ls =>
      dsimp only
      rw [if_neg (hb l (by simp)).2]

theorem take_chunk_step {α : Type} (l : List α) (a b : Nat) :
    l.take a ++ (l.drop a).take b = l.take (a + b) := by
  have h1 : (l.take (a + b)).take a = l.take a := by
    rw [List.take_take, Nat.min_eq_left (Nat.le_add_right a b)]
  have h2 : (l.take (a + b)).drop a = (l.drop a).take b := (List.take_drop a b l).symm
  calc l.take a ++ (l.drop a).take b
      = (l.take (a + b)).take a ++ (l.take (a + b)).drop a := by rw [h1, h2]
    _ = l.take (a + b) := List.take_append_drop a (l.take (a + b))

theorem flatten_chunks {α : Type} (l : List α) (m : Nat) :
    ∀ k : Nat, ((List.range k).map (fun i => (l.drop (i * m)).take m)).flatten
      = l.take (k * m) := by
  intro k
  induction k with
  | zero => simp
  | succ k ih =>
      rw [List.range_succ, List.map_append, List.flatten_append, ih]
      simp only [List.map_cons, List.map_nil, List.flatten_cons, List.flatten_nil,
        List.append_nil]
      rw [take_chunk_step, Nat.succ_mul]

/-- The shard partition covers the SNP list exactly, in order. -/
theorem splitShards_flatten {α : Type} (l : List α) (n : Nat) :
    (splitShards l n).flatten = l := by
  unfold splitShards
  dsimp only
  rw [List.flatten_append, flatten_chunks]
  simp only [List.flatten_cons, List.flatten_nil, List.append_nil]
  exact List.take_append_drop ((n - 1) * (l.length / n)) l

theorem mem_splitShards {α : Type} {l : List α} {n : Nat} {sh : List α}
    (hs : sh ∈ splitShards l n) {x : α} (hx : x ∈ sh) : x ∈ l := by
  rw [← splitShards_flatten l n]
  exact List.mem_flatten.mpr ⟨sh, hs, hx⟩

/-- Transport of a per-worker numeric field through the per-shard sum:
any field that per shard equals a quantity additive over site runs sums
to that quantity over the whole SNP list. -/
theorem shardTds_sum (fs : List csp_bam_fs) (gs : global_settings)
    (mplpP : csp_mplp_t) (shardLists : List (List csp_snp_t))
    (sel : thread_data → Nat) (g : List (csp_snp_t × csp_mplp_t) → Nat)
    (hsel : ∀ sh ∈ shardLists,
      sel (driverExtend gs true thdata_init (passSites fs gs mplpP sh))
        = g (passSites fs gs mplpP sh))
    (hflat : ∀ Ls : List (List (csp_snp_t × csp_mplp_t)),
      (Ls.map g).sum = g Ls.flatten) :
    ((shardLists.map
        (fun sh => driverExtend gs true thdata_init (passSites fs gs mplpP sh))).map
      sel).sum = g (passSites fs gs mplpP shardLists.flatten) := by
  have h1 : shardLists.map
      (fun sh => sel (driverExtend gs true thdata_init (passSites fs gs mplpP sh)))
        = shardLists.map (fun sh => g (passSites fs gs mplpP sh)) :=
    List.map_congr_left (fun sh hs => hsel sh hs)
  have h2 : shardLists.map (fun sh => g (passSites fs gs mplpP sh))
      = (shardLists.map (passSites fs gs mplpP)).map g := by
    simp only [List.map_map, Function.comp_def]
  simp only [List.map_map, Function.comp_def]
  rw [h1, h2, hflat, ← passSites_flatten]

/-- Transport of a per-worker line list through fragment concatenation:
any field that per shard is a per-site map concatenates to the map over
the whole SNP list. -/
theorem shardTds_map_flatten {β : Type} (fs : List csp_bam_fs) (gs : global_settings)
    (mplpP : csp_mplp_t) (shardLists : List (List csp_snp_t))
    (sel : thread_data → List β) (g : csp_snp_t × csp_mplp_t → β)
    (hsel : ∀ sh ∈ shardLists,
      sel (driverExtend gs true thdata_init (passSites fs gs mplpP sh))
        = (passSites fs gs mplpP sh).map g) :
    ((shardLists.map
        (fun sh => driverExtend gs true thdata_init (passSites fs gs mplpP sh))).map
      sel).flatten = (passSites fs gs mplpP shardLists.flatten).map g := by
  have h1 : shardLists.map
      (fun sh => sel (driverExtend gs true thdata_init (passSites fs gs mplpP sh)))
        = shardLists.map (fun sh => (passSites fs gs mplpP sh).map g) :=
    List.map_congr_left (fun sh hs => hsel sh hs)
  have h2 : shardLists.map (fun sh => (passSites fs gs mplpP sh).map g)
      = (shardLists.map (passSites fs gs mplpP)).map (List.map g) := by
    simp only [List.map_map, Function.comp_def]
  simp only [List.map_map, Function.comp_def]
  rw [h1, h2, ← List.map_flatten, ← passSites_flatten]

/-- The per-matrix merge of a successful multi-worker run: the
merge-computed site and record counts equal the per-shard sums, the
verification passes, and the emitted lines are the stat line from the
sums followed by the direct-mode body with global ordinals. -/
theorem sharded_matrix_merge (fs : List csp_bam_fs) (gs : global_settings)
    (mplpP : csp_mplp_t) (shardLists : List (List csp_snp_t)) (nsmp : Nat)
    (f : csp_plp_t → Nat) (mtxF : thread_data → List (List Char))
    (nrF : thread_data → Nat)
    (hmtxF : ∀ sites, mtxF (driverExtend gs true thdata_init sites)
      = sitesMtxLines true f 0 sites)
    (hnrF : ∀ sh ∈ shardLists,
      nrF (driverExtend gs true thdata_init (passSites fs gs mplpP sh))
        = recCount f (passSites fs gs mplpP sh))
    (tds : List thread_data)
    (htds : tds = shardLists.map
        (fun sh => driverExtend gs true thdata_init (passSites fs gs mplpP sh))) :
    (merge_mtx (tds.map mtxF)).1 = (tds.map thread_data.ns).sum ∧
    (merge_mtx (tds.map mtxF)).2.1 = (tds.map nrF).sum ∧
    merge_and_check (tds.map mtxF) ((tds.map thread_data.ns).sum)
        ((tds.map nrF).sum) nsmp
      = some (statLine ((tds.map thread_data.ns).sum) nsmp ((tds.map nrF).sum)
          :: sitesMtxLines false f 0 (passSites fs gs mplpP shardLists.flatten)) := by
  subst htds
  have hm : (shardLists.map
      (fun sh => driverExtend gs true thdata_init (passSites fs gs mplpP sh))).map mtxF
        = (shardLists.map (passSites fs gs mplpP)).map
            (fun sites => sitesMtxLines true f 0 sites) := by
    simp only [List.map_map, Function.comp_def]
    exact List.map_congr_left (fun sh _ => hmtxF (passSites fs gs mplpP sh))
  have h1 : (shardLists.map
      (fun sh => driverExtend gs true thdata_init (passSites fs gs mplpP sh))).map
        thread_data.ns
        = (shardLists.map (passSites fs gs mplpP)).map List.length := by
    simp only [List.map_map, Function.comp_def]
    exact List.map_congr_left
      (fun sh _ => (driverExtend_init_fields gs true (passSites fs gs mplpP sh)).1)
  have h2 : (shardLists.map
      (fun sh => driverExtend gs true thdata_init (passSites fs gs mplpP sh))).map nrF
        = (shardLists.map (passSites fs gs mplpP)).map (recCount f) := by
    simp only [List.map_map, Function.comp_def]
    exact List.map_congr_left (fun sh hs => hnrF sh hs)
  have hmerge := merge_mtx_frags f (shardLists.map (passSites fs gs mplpP))
  refine ⟨?_, ?_, ?_⟩
  · rw [hm, hmerge, h1]
  · rw [hm, hmerge, h2]
  · rw [hm]
    unfold merge_and_check
    rw [hmerge]
    dsimp only
    rw [if_pos ⟨by rw [h1], by rw [h2]⟩, passSites_flatten]

/-- C9: merge correctness.  (1) Any mismatch between the merge-computed
site/record counts of `merge_mtx` and the counts handed to the check
(the per-shard sums) makes the merge step fail (`return` to `fail`, no
final output).  (2) For every multi-worker run whose per-shard drivers
all complete (no site hard-fails, zero-counter template), and for each
of the three matrices, the site count and record count `merge_mtx`
computes from blank-line boundaries and non-blank lines equal the sums
over shards of the per-shard passing-site counts and record counts, the
check passes, and the emitted stat-line header carries exactly those
sums. -/
theorem merge_counts_correct :
    (∀ (frags : List (List (List Char))) (ns nr nsmp : Nat),
        ((merge_mtx frags).1 ≠ ns ∨ (merge_mtx frags).2.1 ≠ nr) →
        merge_and_check frags ns nr nsmp = none) ∧
    (∀ (fs : List csp_bam_fs) (gs : global_settings) (mplpP : csp_mplp_t)
        (shardLists : List (List csp_snp_t)) (nsmp : Nat) (tds : List thread_data),
        (∀ sh ∈ shardLists, ∀ snp ∈ sh, siteNonFatal fs gs mplpP snp = true) →
        (mplpP.nr_ad = 0 ∧ mplpP.nr_dp = 0 ∧ mplpP.nr_oth = 0) →
        shardLists.mapM (fun sh => pileup_positions_loop fs gs mplpP true sh thdata_init)
          = some tds →
        ((merge_mtx (tds.map thread_data.mtx_ad)).1 = (tds.map thread_data.ns).sum ∧
          (merge_mtx (tds.map thread_data.mtx_ad)).2.1
            = (tds.map thread_data.nr_ad).sum ∧
          merge_and_check (tds.map thread_data.mtx_ad) ((tds.map thread_data.ns).sum)
              ((tds.map thread_data.nr_ad).sum) nsmp
            = some (statLine ((tds.map thread_data.ns).sum) nsmp
                  ((tds.map thread_data.nr_ad).sum)
                :: sitesMtxLines false (fun p => p.ad) 0
                    (passSites fs gs mplpP shardLists.flatten))) ∧
        ((merge_mtx (tds.map thread_data.mtx_dp)).1 = (tds.map thread_data.ns).sum ∧
          (merge_mtx (tds.map thread_data.mtx_dp)).2.1
            = (tds.map thread_data.nr_dp).sum ∧
          merge_and_check (tds.map thread_data.mtx_dp) ((tds.map thread_data.ns).sum)
              ((tds.map thread_data.nr_dp).sum) nsmp
            = some (statLine ((tds.map thread_data.ns).sum) nsmp
                  ((tds.map thread_data.nr_dp).sum)
                :: sitesMtxLines false (fun p => p.dp) 0
                    (passSites fs gs mplpP shardLists.flatten))) ∧
        ((merge_mtx (tds.map thread_data.mtx_oth)).1 = (tds.map thread_data.ns).sum ∧
          (merge_mtx (tds.map thread_data.mtx_oth)).2.1
            = (tds.map thread_data.nr_oth).sum ∧
          merge_and_check (tds.map thread_data.mtx_oth) ((tds.map thread_data.ns).sum)
              ((tds.map thread_data.nr_oth).sum) nsmp
            = some (statLine ((tds.map thread_data.ns).sum) nsmp
                  ((tds.map thread_data.nr_oth).sum)
                :: sitesMtxLines false (fun p => p.oth) 0
                    (passSites fs gs mplpP shardLists.flatten)))) := by
  constructor
  · intro frags ns nr nsmp hne
    unfold merge_and_check
    dsimp only
    rcases hne with h | h
    · rw [if_neg (fun hc => h hc.1)]
    · rw [if_neg (fun hc => h hc.2)]
  · intro fs gs mplpP shardLists nsmp tds hok hz htd
    have htds : tds = shardLists.map
        (fun sh => driverExtend gs true thdata_init (passSites fs gs mplpP sh)) := by
      have h := shard_mapM fs gs mplpP shardLists hok
      rw [htd] at h
      exact Option.some.inj h
    refine ⟨?_, ?_, ?_⟩
    · exact sharded_matrix_merge fs gs mplpP shardLists nsmp (fun p => p.ad)
        thread_data.mtx_ad thread_data.nr_ad
        (fun sites => (driverExtend_init_fields gs true sites).2.2.2.2.1)
        (fun sh hs => by
          rw [(driverExtend_init_fields gs true (passSites fs gs mplpP sh)).2.1,
            (passSites_nr_sum fs gs mplpP sh hz).1])
        tds htds
    · exact sharded_matrix_merge fs gs mplpP shardLists nsmp (fun p => p.dp)
        thread_data.mtx_dp thread_data.nr_dp
        (fun sites => (driverExtend_init_fields gs true sites).2.2.2.2.2.1)
        (fun sh hs => by
          rw [(driverExtend_init_fields gs true (passSites fs gs mplpP sh)).2.2.1,
            (passSites_nr_sum fs gs mplpP sh hz).2.1])
        tds htds
    · exact sharded_matrix_merge fs gs mplpP shardLists nsmp (fun p => p.oth)
        thread_data.mtx_oth thread_data.nr_oth
        (fun sites => (driverExtend_init_fields gs true sites).2.2.2.2.2.2.1)
        (fun sh hs => by
          rw [(driverExtend_init_fields gs true (passSites fs gs mplpP sh)).2.2.2.1,
            (passSites_nr_sum fs gs mplpP sh hz).2.2])
        tds htds

/-- Witness for C9: a count mismatch on a concrete fragment list aborts
the merge, and for a concrete two-shard run (one passing SNP, one empty
shard) the merge-computed site count equals the per-shard sum. -/
theorem merge_counts_correct_witness :
    siteNonFatal [srcGood] gsEx mplpEx1 snpEx = true ∧
    (mplpEx1.nr_ad = 0 ∧ mplpEx1.nr_dp = 0 ∧ mplpEx1.nr_oth = 0) ∧
    merge_and_check [[]] 5 0 1 = none ∧
    (merge_mtx (([[snpEx], []].map (fun sh => driverExtend gsEx true thdata_init
          (passSites [srcGood] gsEx mplpEx1 sh))).map thread_data.mtx_ad)).1
      = (([[snpEx], []].map (fun sh => driverExtend gsEx true thdata_init
          (passSites [srcGood] gsEx mplpEx1 sh))).map thread_data.ns).sum :=
  ⟨by decide, by decide,
   merge_counts_correct.1 [[]] 5 0 1 (Or.inl (by decide)),
   (merge_counts_correct.2 [srcGood] gsEx mplpEx1 [[snpEx], []] 1 _
      (by decide) (by decide)
      (shard_mapM [srcGood] gsEx mplpEx1 [[snpEx], []] (by decide))).1.1⟩

set_option maxRecDepth 8000 in
/-- C1: on a fixed input whose sites all process without a hard failure
(and a zero-counter prepared template, as `csp_mplp_prepare` yields),
the multi-worker coordinator with 4 shards (private temporary fragments,
merge with renumbering, count verification) and the single-worker
coordinator (direct write, in-place header rewrite) produce identical
final AD/DP/OTH matrix files and identical base/cells VCF files; both
runs succeed.  Row ordinals and record order do not depend on the shard
count. -/
theorem run_shard_determinism (fs : List csp_bam_fs) (gs : global_settings)
    (mplpP : csp_mplp_t) (nsample : Nat) (hdrVcf hdrCells : List (List Char))
    (snps : List csp_snp_t)
    (hok : ∀ snp ∈ snps, siteNonFatal fs gs mplpP snp = true)
    (hz : mplpP.nr_ad = 0 ∧ mplpP.nr_dp = 0 ∧ mplpP.nr_oth = 0) :
    run_sharded fs gs mplpP nsample hdrVcf hdrCells snps 4
      = run_direct fs gs mplpP nsample hdrVcf hdrCells snps ∧
    (run_direct fs gs mplpP nsample hdrVcf hdrCells snps).isSome = true := by
  have hfd := driverExtend_init_fields gs false (passSites fs gs mplpP snps)
  have hnr1 : (driverExtend gs false thdata_init (passSites fs gs mplpP snps)).nr_ad
      = recCount (fun p => p.ad) (passSites fs gs mplpP snps) := by
    rw [hfd.2.1, (passSites_nr_sum fs gs mplpP snps hz).1]
  have hnr2 : (driverExtend gs false thdata_init (passSites fs gs mplpP snps)).nr_dp
      = recCount (fun p => p.dp) (passSites fs gs mplpP snps) := by
    rw [hfd.2.2.1, (passSites_nr_sum fs gs mplpP snps hz).2.1]
  have hnr3 : (driverExtend gs false thdata_init (passSites fs gs mplpP snps)).nr_oth
      = recCount (fun p => p.oth) (passSites fs gs mplpP snps) := by
    rw [hfd.2.2.2.1, (passSites_nr_sum fs gs mplpP snps hz).2.2]
  have hA : run_direct fs gs mplpP nsample hdrVcf hdrCells snps
      = some
        { mtx_ad := (mtxHeaderChars ++
              statLine (passSites fs gs mplpP snps).length nsample
                  (recCount (fun p => p.ad) (passSites fs gs mplpP snps))
                :: sitesMtxLines false (fun p => p.ad) 0 (passSites fs gs mplpP snps)),
          mtx_dp := (mtxHeaderChars ++
              statLine (passSites fs gs mplpP snps).length nsample
                  (recCount (fun p => p.dp) (passSites fs gs mplpP snps))
                :: sitesMtxLines false (fun p => p.dp) 0 (passSites fs gs mplpP snps)),
          mtx_oth := (mtxHeaderChars ++
              statLine (passSites fs gs mplpP snps).length nsample
                  (recCount (fun p => p.oth) (passSites fs gs mplpP snps))
                :: sitesMtxLines false (fun p => p.oth) 0 (passSites fs gs mplpP snps)),
          vcf_base := (hdrVcf ++
              (passSites fs gs mplpP snps).map (fun s => vcf_base_line s.1 s.2)),
          vcf_cells := (if gs.is_genotype then
              some (hdrCells ++
                (passSites fs gs mplpP snps).map (fun s => vcf_cells_line s.1 s.2))
            else none) } := by
    unfold run_direct
    rw [pileup_positions_loop_spec fs gs mplpP false snps thdata_init hok]
    dsimp only
    rw [hfd.2.2.2.2.1, hfd.2.2.2.2.2.1, hfd.2.2.2.2.2.2.1, hfd.1, hnr1, hnr2, hnr3]
    rw [rewrite_mtx_spec (sitesMtxLines false (fun p => p.ad) 0 (passSites fs gs mplpP snps))
        ((passSites fs gs mplpP snps).length) nsample
        (recCount (fun p => p.ad) (passSites fs gs mplpP snps))
        (fun l hl => sitesMtxLines_false_mem (fun p => p.ad)
          (passSites fs gs mplpP snps) 0 l hl)
        (fun hbody => sitesMtxLines_false_nil (fun p => p.ad)
          (passSites fs gs mplpP snps) 0 hbody),
      rewrite_mtx_spec (sitesMtxLines false (fun p => p.dp) 0 (passSites fs gs mplpP snps))
        ((passSites fs gs mplpP snps).length) nsample
        (recCount (fun p => p.dp) (passSites fs gs mplpP snps))
        (fun l hl => sitesMtxLines_false_mem (fun p => p.dp)
          (passSites fs gs mplpP snps) 0 l hl)
        (fun hbody => sitesMtxLines_false_nil (fun p => p.dp)
          (passSites fs gs mplpP snps) 0 hbody),
      rewrite_mtx_spec (sitesMtxLines false (fun p => p.oth) 0 (passSites fs gs mplpP snps))
        ((passSites fs gs mplpP snps).length) nsample
        (recCount (fun p => p.oth) (passSites fs gs mplpP snps))
        (fun l hl => sitesMtxLines_false_mem (fun p => p.oth)
          (passSites fs gs mplpP snps) 0 l hl)
        (fun hbody => sitesMtxLines_false_nil (fun p => p.oth)
          (passSites fs gs mplpP snps) 0 hbody)]
    dsimp only
    rw [hfd.2.2.2.2.2.2.2.1, hfd.2.2.2.2.2.2.2.2]
    by_cases hg : gs.is_genotype = true <;> simp [hg]
  have hshok : ∀ sh ∈ splitShards snps 4, ∀ snp ∈ sh,
      siteNonFatal fs gs mplpP snp = true :=
    fun sh hs snp hsnp => hok snp (mem_splitShards hs hsnp)
  have hm1 := (sharded_matrix_merge fs gs mplpP (splitShards snps 4) nsample
      (fun p => p.ad) thread_data.mtx_ad thread_data.nr_ad
      (fun sites => (driverExtend_init_fields gs true sites).2.2.2.2.1)
      (fun sh hs => by
        rw [(driverExtend_init_fields gs true (passSites fs gs mplpP sh)).2.1,
          (passSites_nr_sum fs gs mplpP sh hz).1])
      ((splitShards snps 4).map
        (fun sh => driverExtend gs true thdata_init (passSites fs gs mplpP sh)))
      rfl).2.2
  have hm2 := (sharded_matrix_merge fs gs mplpP (splitShards snps 4) nsample
      (fun p => p.dp) thread_data.mtx_dp thread_data.nr_dp
      (fun sites => (driverExtend_init_fields gs true sites).2.2.2.2.2.1)
      (fun sh hs => by
        rw [(driverExtend_init_fields gs true (passSites fs gs mplpP sh)).2.2.1,
          (passSites_nr_sum fs gs mplpP sh hz).2.1])
      ((splitShards snps 4).map
        (fun sh => driverExtend gs true thdata_init (passSites fs gs mplpP sh)))
      rfl).2.2
  have hm3 := (sharded_matrix_merge fs gs mplpP (splitShards snps 4) nsample
      (fun p => p.oth) thread_data.mtx_oth thread_data.nr_oth
      (fun sites => (driverExtend_init_fields gs true sites).2.2.2.2.2.2.1)
      (fun sh hs => by
        rw [(driverExtend_init_fields gs true (passSites fs gs mplpP sh)).2.2.2.1,
          (passSites_nr_sum fs gs mplpP sh hz).2.2])
      ((splitShards snps 4).map
        (fun sh => driverExtend gs true thdata_init (passSites fs gs mplpP sh)))
      rfl).2.2
  have hs_ns := shardTds_sum fs gs mplpP (splitShards snps 4) thread_data.ns
      List.length
      (fun sh hs => (driverExtend_init_fields gs true (passSites fs gs mplpP sh)).1)
      (fun Ls => by rw [List.length_flatten])
  have hs_ad := shardTds_sum fs gs mplpP (splitShards snps 4) thread_data.nr_ad
      (recCount (fun p => p.ad))
      (fun sh hs => by
        rw [(driverExtend_init_fields gs true (passSites fs gs mplpP sh)).2.1,
          (passSites_nr_sum fs gs mplpP sh hz).1])
      (fun Ls => (recCount_flatten (fun p => p.ad) Ls).symm)
  have hs_dp := shardTds_sum fs gs mplpP (splitShards snps 4) thread_data.nr_dp
      (recCount (fun p => p.dp))
      (fun sh hs => by
        rw [(driverExtend_init_fields gs true (passSites fs gs mplpP sh)).2.2.1,
          (passSites_nr_sum fs gs mplpP sh hz).2.1])
      (fun Ls => (recCount_flatten (fun p => p.dp) Ls).symm)
  have hs_oth := shardTds_sum fs gs mplpP (splitShards snps 4) thread_data.nr_oth
      (recCount (fun p => p.oth))
      (fun sh hs => by
        rw [(driverExtend_init_fields gs true (passSites fs gs mplpP sh)).2.2.2.1,
          (passSites_nr_sum fs gs mplpP sh hz).2.2])
      (fun Ls => (recCount_flatten (fun p => p.oth) Ls).symm)
  have hvb := shardTds_map_flatten fs gs mplpP (splitShards snps 4)
      thread_data.vcf_base (fun s => vcf_base_line s.1 s.2)
      (fun sh hs =>
        (driverExtend_init_fields gs true (passSites fs gs mplpP sh)).2.2.2.2.2.2.2.1)
  have hB : run_sharded fs gs mplpP nsample hdrVcf hdrCells snps 4
      = some
        { mtx_ad := (mtxHeaderChars ++
              statLine (passSites fs gs mplpP snps).length nsample
                  (recCount (fun p => p.ad) (passSites fs gs mplpP snps))
                :: sitesMtxLines false (fun p => p.ad) 0 (passSites fs gs mplpP snps)),
          mtx_dp := (mtxHeaderChars ++
              statLine (passSites fs gs mplpP snps).length nsample
                  (recCount (fun p => p.dp) (passSites fs gs mplpP snps))
                :: sitesMtxLines false (fun p => p.dp) 0 (passSites fs gs mplpP snps)),
          mtx_oth := (mtxHeaderChars ++
              statLine (passSites fs gs mplpP snps).length nsample
                  (recCount (fun p => p.oth) (passSites fs gs mplpP snps))
                :: sitesMtxLines false (fun p => p.oth) 0 (passSites fs gs mplpP snps)),
          vcf_base := (hdrVcf ++
              (passSites fs gs mplpP snps).map (fun s => vcf_base_line s.1 s.2)),
          vcf_cells := (if gs.is_genotype then
              some (hdrCells ++
                (passSites fs gs mplpP snps).map (fun s => vcf_cells_line s.1 s.2))
            else none) } := by
    unfold run_sharded
    rw [shard_mapM fs gs mplpP (splitShards snps 4) hshok]
    dsimp only
    rw [hm1, hm2, hm3]
    dsimp only
    rw [hs_ns, hs_ad, hs_dp, hs_oth, hvb, splitShards_flatten snps 4]
    by_cases hg : gs.is_genotype = true
    · have hvc := shardTds_map_flatten fs gs mplpP (splitShards snps 4)
          thread_data.vcf_cells (fun s => vcf_cells_line s.1 s.2)
          (fun sh hs => by
            rw [(driverExtend_init_fields gs true
                (passSites fs gs mplpP sh)).2.2.2.2.2.2.2.2, if_pos hg])
      rw [splitShards_flatten snps 4] at hvc
      simp only [List.map_map, Function.comp_def] at hvc
      simp [hg, Function.comp_def, hvc]
    · simp [hg]
  exact ⟨hB.trans hA.symm, by rw [hA]; rfl⟩

/-- Witness for C1: on a concrete input (one source, one SNP, barcode
roster of one), the 4-shard coordinator and the single-worker
coordinator agree and both succeed. -/
theorem run_shard_determinism_witness :
    siteNonFatal [srcGood] gsEx mplpEx1 snpEx = true ∧
    (mplpEx1.nr_ad = 0 ∧ mplpEx1.nr_dp = 0 ∧ mplpEx1.nr_oth = 0) ∧
    (run_sharded [srcGood] gsEx mplpEx1 1 [] [] [snpEx] 4
        = run_direct [srcGood] gsEx mplpEx1 1 [] [] [snpEx] ∧
      (run_direct [srcGood] gsEx mplpEx1 1 [] [] [snpEx]).isSome = true) :=
  ⟨by decide, by decide,
   run_shard_determinism [srcGood] gsEx mplpEx1 1 [] [] [snpEx]
     (by decide) (by decide)⟩

end CellSNP
